import Mathlib

/-!
# Registry state machine of the mediasoup signalling backend

Shallow embedding of `src/mediasoup-utils.js` and of the signalling handlers of
`src/socket.js`.

The module-level variables `rooms`, `peers`, `transports`, `producers` and
`consumers` become the fields of `World`.  The Media Engine (mediasoup) and the
socket.io sockets are external: the calls the code makes on them are recorded in
the logs `closed`, `emitted` and `routersCreated`, and the objects the engine
hands back (`transport.produce`, `transport.consume`, `worker.createRouter`)
are arguments of the operations that receive them.

JavaScript `undefined` is `none`.  A call that raises a `TypeError` yields
`Outcome.threw`, carrying the state at the moment of the throw.  Each exported
function and each handler is modelled as one atomic step: the interleavings
that an `await` allows are not part of the model, except for the `await` of
`createRoom`, whose two halves are separate definitions.  `rooms` is the plain
object it is in the source: a read finds own properties first and then what
the object inherits.  The keys of `peers` are socket ids, which the server
issues, and are read as own properties only.
-/

namespace Mediasoup

/-! ## Handles of the external collaborators -/

/-- Socket.io socket; `id` is `socket.id`, which the handlers use as peer id. -/
structure Socket where
  id : String
deriving DecidableEq, Repr

/-- Router handle of the Media Engine, identified by its creation index. -/
structure Router where
  index : Nat
deriving DecidableEq, Repr

/-- Worker handle of the Media Engine.  `getWorker()` is `some` of it once
`createWorker` has resolved and `none` (the initial `null`) before. -/
structure Worker where
  pid : Nat
deriving DecidableEq, Repr

/-- WebRtcTransport handle of the Media Engine. -/
structure Transport where
  id : String
deriving DecidableEq, Repr

/-- Producer handle of the Media Engine. -/
structure Producer where
  id : String
deriving DecidableEq, Repr

/-- Consumer handle of the Media Engine; `producerId` is the producer it was
created for (`transport.consume({ producerId, ... })`). -/
structure Consumer where
  id : String
  producerId : String
deriving DecidableEq, Repr

/-- Engine object on which the code may call `close()`. -/
inductive Handle where
  | transport (t : Transport)
  | producer (p : Producer)
  | consumer (c : Consumer)
deriving DecidableEq, Repr

/-- Value of a property read `item[type]`. -/
inductive JSVal where
  | undefined
  | str (s : String)
  | flag (b : Bool)
  | handle (h : Handle)
deriving DecidableEq, Repr

/-! ## Registry records -/

/-- Value of `rooms[roomName]`: `{ router, peers }`, either of which
`removePeer` may store as `undefined`. -/
structure Room where
  router : Option Router
  peers : Option (List String)
deriving DecidableEq, Repr

/-- Value of `peers[id]`.  Every property may be missing, since `setPeer`
merges partial objects into `peers[id] || {}`. -/
structure Peer where
  socket : Option Socket
  roomName : Option String
  transports : Option (List Transport)
  consumers : Option (List String)
  producers : Option (List String)
  peerDetails : Option Unit
deriving DecidableEq, Repr

/-- Object literal passed to `setPeer`: `none` is a property that the literal
does not have, `some v` one that it has (for `roomName`, `some none` is the
property present with value `undefined`). -/
structure PeerPatch where
  socket : Option Socket
  roomName : Option (Option String)
  transports : Option (List Transport)
  consumers : Option (List String)
  producers : Option (List String)
  peerDetails : Option Unit
deriving DecidableEq, Repr

/-- Element of `transports`: `{ peerId, transport, roomName, consumer }`;
`consumer` is the truthiness of the flag the client sent. -/
structure TransportData where
  peerId : String
  transport : Transport
  roomName : Option String
  consumer : Bool
deriving DecidableEq, Repr

/-- Element of `producers`: `{ peerId, producer, roomName }`. -/
structure ProducerData where
  peerId : String
  producer : Producer
  roomName : Option String
deriving DecidableEq, Repr

/-- Element of `consumers`: `{ peerId, consumer, roomName }`. -/
structure ConsumerData where
  peerId : String
  consumer : Consumer
  roomName : Option String
deriving DecidableEq, Repr

/-- One `socket.emit(event, payload)`; `recipient` is the peer id under which
the socket was found (for a handler emitting on its own socket, `socket.id`). -/
structure Emit where
  recipient : String
  socket : Socket
  event : String
  payload : String
deriving DecidableEq, Repr

/-- Module state of `mediasoup-utils.js` together with the logs of the calls
made on the external collaborators. -/
structure World where
  rooms : List (String × Room)
  peers : List (String × Peer)
  transports : List TransportData
  producers : List ProducerData
  consumers : List ConsumerData
  closed : List Handle
  emitted : List Emit
  routersCreated : Nat
deriving DecidableEq, Repr

/-- Result of running a function: normal completion with a value, or a raised
`TypeError`; both carry the state reached. -/
inductive Outcome (α : Type) where
  | ok (val : α) (w : World)
  | threw (w : World)
deriving DecidableEq, Repr

/-- State after the call, whether it returned or raised. -/
def Outcome.world {α : Type} : Outcome α → World
  | .ok _ w => w
  | .threw w => w

/-- Whether the call returned normally. -/
def Outcome.completed {α : Type} : Outcome α → Bool
  | .ok _ _ => true
  | .threw _ => false

/-- The registry right after module load. -/
def World.empty : World :=
  { rooms := [], peers := [], transports := [], producers := [], consumers := [],
    closed := [], emitted := [], routersCreated := 0 }

/-! ## JavaScript objects used as maps -/

/-- Property read `obj[key]`. -/
def dictGet {α : Type} : List (String × α) → String → Option α
  | [], _ => none
  | (k, v) :: rest, key => if k = key then some v else dictGet rest key

/-- Property write `obj[key] = v`: an existing key keeps its position. -/
def dictSet {α : Type} : List (String × α) → String → α → List (String × α)
  | [], key, v => [(key, v)]
  | (k, x) :: rest, key, v =>
    if k = key then (k, v) :: rest else (k, x) :: dictSet rest key v

/-- Property removal `delete obj[key]`. -/
def dictDelete {α : Type} (d : List (String × α)) (key : String) : List (String × α) :=
  d.filter (fun e => decide (e.1 ≠ key))

/-- Property key that a room name is converted to: `rooms[undefined]` is
`rooms["undefined"]`. -/
def keyOf : Option String → String
  | none => "undefined"
  | some s => s

/-- The property names every plain object inherits from `Object.prototype`. -/
def objectPrototypeNames : List String :=
  ["constructor", "__defineGetter__", "__defineSetter__", "hasOwnProperty",
   "__lookupGetter__", "__lookupSetter__", "isPrototypeOf", "propertyIsEnumerable",
   "toString", "valueOf", "__proto__", "toLocaleString"]

/-- What a value that is not a room reads as when the code takes `.router` and
`.peers` of it: a truthy object or function that has neither property. -/
def Room.foreign : Room :=
  { router := none, peers := none }

/-- The read `rooms[key]` on the plain object `rooms`.  Own properties come
first.  The entry stored under `__proto__` is the object that the assignment
`rooms['__proto__'] = room` installed as prototype of `rooms`: it answers the
key `__proto__` itself, and its two properties `router` and `peers` are
inherited under those names (a property holding `undefined` reads as
`undefined`).  Last come the members of `Object.prototype`. -/
def roomsLookup (rooms : List (String × Room)) (key : String) : Option Room :=
  match dictGet rooms key with
  | some room => some room
  | none =>
    match dictGet rooms "__proto__" with
    | some proto =>
      if key = "router" then (if proto.router.isSome then some Room.foreign else none)
      else if key = "peers" then (if proto.peers.isSome then some Room.foreign else none)
      else if key ∈ objectPrototypeNames then some Room.foreign
      else none
    | none => if key ∈ objectPrototypeNames then some Room.foreign else none

/-! ## `mediasoup-utils.js` -/

/-- Line 44.  The value is `none` exactly when `rooms[roomName]` is `undefined`;
an inherited member that is not a room reads as `Room.foreign`. -/
def getRoom (w : World) (roomName : Option String) : Option Room :=
  roomsLookup w.rooms (keyOf roomName)

def setRoom (w : World) (roomName : Option String) (room : Room) : World :=
  { w with rooms := dictSet w.rooms (keyOf roomName) room }

def getPeer (w : World) (id : String) : Option Peer :=
  dictGet w.peers id

/-- The empty object `{}` read as a peer. -/
def Peer.empty : Peer :=
  { socket := none, roomName := none, transports := none, consumers := none,
    producers := none, peerDetails := none }

/-- Spread `{ ...old, ...patch }`. -/
def Peer.assign (old : Peer) (patch : PeerPatch) : Peer :=
  { socket := patch.socket <|> old.socket
    roomName := patch.roomName.getD old.roomName
    transports := patch.transports <|> old.transports
    consumers := patch.consumers <|> old.consumers
    producers := patch.producers <|> old.producers
    peerDetails := patch.peerDetails <|> old.peerDetails }

/-- Properties contributed by `...peer` inside an object literal. -/
def Peer.spread (peer : Peer) : PeerPatch :=
  { socket := peer.socket
    roomName := peer.roomName.map some
    transports := peer.transports
    consumers := peer.consumers
    producers := peer.producers
    peerDetails := peer.peerDetails }

def setPeer (w : World) (id : String) (peer : PeerPatch) : World :=
  { w with peers := dictSet w.peers id (((getPeer w id).getD Peer.empty).assign peer) }

/-- Registry entries that `removeItems` walks: their `peerId` and the property
read `item[type]`. -/
class Item (α : Type) where
  peerId : α → String
  prop : α → String → JSVal

instance : Item TransportData where
  peerId := fun item => item.peerId
  prop := fun item type =>
    if type = "peerId" then JSVal.str item.peerId
    else if type = "transport" then JSVal.handle (Handle.transport item.transport)
    else if type = "roomName" then (match item.roomName with
      | some r => JSVal.str r
      | none => JSVal.undefined)
    else if type = "consumer" then JSVal.flag item.consumer
    else JSVal.undefined

instance : Item ProducerData where
  peerId := fun item => item.peerId
  prop := fun item type =>
    if type = "peerId" then JSVal.str item.peerId
    else if type = "producer" then JSVal.handle (Handle.producer item.producer)
    else if type = "roomName" then (match item.roomName with
      | some r => JSVal.str r
      | none => JSVal.undefined)
    else JSVal.undefined

instance : Item ConsumerData where
  peerId := fun item => item.peerId
  prop := fun item type =>
    if type = "peerId" then JSVal.str item.peerId
    else if type = "consumer" then JSVal.handle (Handle.consumer item.consumer)
    else if type = "roomName" then (match item.roomName with
      | some r => JSVal.str r
      | none => JSVal.undefined)
    else JSVal.undefined

/-- The call `v?.close()`: skipped on `undefined`, recorded on an engine
handle, a `TypeError` on a string or boolean (they have no `close`). -/
def optClose (w : World) : JSVal → Outcome Unit
  | .undefined => .ok () w
  | .handle h => .ok () { w with closed := w.closed ++ [h] }
  | .str _ => .threw w
  | .flag _ => .threw w

/-- The `arr.forEach` loop of `removeItems`. -/
def removeItemsLoop {α : Type} [Item α] (peerId : String) (type : String) :
    List α → World → Outcome Unit
  | [], w => .ok () w
  | item :: rest, w =>
    if Item.peerId item = peerId then
      match optClose w (Item.prop item type) with
      | .ok _ w1 => removeItemsLoop peerId type rest w1
      | .threw w1 => .threw w1
    else removeItemsLoop peerId type rest w

def removeItems {α : Type} [Item α] (w : World) (arr : List α) (peerId : String)
    (type : String) : Outcome (List α) :=
  match removeItemsLoop peerId type arr w with
  | .ok _ w1 => .ok (arr.filter (fun item => decide (Item.peerId item ≠ peerId))) w1
  | .threw w1 => .threw w1

/-- Lines 55-71.  `console.log(room)` is not modelled.  The callback of the
membership filter binds its parameter to the name `peerId`, as the source does. -/
def removePeer (w : World) (peerId : String) : Outcome Unit :=
  match removeItems w w.consumers peerId "consumer" with
  | .threw w1 => .threw w1
  | .ok cs w1 =>
    let w1 := { w1 with consumers := cs }
    match removeItems w1 w1.transports peerId "transports" with
    | .threw w2 => .threw w2
    | .ok ts w2 =>
      let w2 := { w2 with transports := ts }
      match removeItems w2 w2.producers peerId "producers" with
      | .threw w3 => .threw w3
      | .ok ps w3 =>
        let w3 := { w3 with producers := ps }
        let roomName := (getPeer w3 peerId).bind (fun peer => peer.roomName)
        match getRoom w3 roomName with
        | none =>
          let w4 := setRoom w3 roomName { router := none, peers := none }
          .ok () { w4 with peers := dictDelete w4.peers peerId }
        | some room =>
          match room.peers with
          | none => .threw w3
          | some members =>
            let w4 := setRoom w3 roomName
              { router := room.router
                peers := some (members.filter (fun peerId => decide (peerId ≠ peerId))) }
            .ok () { w4 with peers := dictDelete w4.peers peerId }

/-- Line 40-42: `worker.createRouter({ mediaCodecs })`.  `worker` is the value
of `getWorker()`, `none` while `createWorker` has not resolved: the call then
raises.  The engine hands out a fresh router on every call; routers are
numbered in order of creation. -/
def createRouter (w : World) (worker : Option Worker) : Outcome Router :=
  match worker with
  | none => .threw w
  | some _ =>
    .ok { index := w.routersCreated } { w with routersCreated := w.routersCreated + 1 }

/-- Lines 84-89 of `createRoom` on the path that created a router: what runs
once `await createRouter(worker)` has resolved with `router`, in the state the
registry is in by then.  The local `peers` is still the empty array. -/
def createRoomResume (w : World) (roomName : Option String) (peerId : String)
    (router : Router) : Outcome (Option Room) :=
  let peers : List String := []
  let w1 := setRoom w roomName { router := some router, peers := some (peers ++ [peerId]) }
  .ok (getRoom w1 roomName) w1

/-- Lines 73-90, run with nothing else happening between the test of line 77
and the write of line 84.  Returns the value of `getRoom(roomName)` after the
write.  A call that is overtaken while it awaits `createRouter` is the test in
one state followed by `createRoomResume` in a later one. -/
def createRoom (w : World) (worker : Option Worker) (roomName : Option String)
    (peerId : String) : Outcome (Option Room) :=
  match getRoom w roomName with
  | some room =>
    let router := room.router
    let peers := room.peers.getD []
    let w1 := setRoom w roomName { router := router, peers := some (peers ++ [peerId]) }
    .ok (getRoom w1 roomName) w1
  | none =>
    match createRouter w worker with
    | .threw w1 => .threw w1
    | .ok router w1 => createRoomResume w1 roomName peerId router

/-- Lines 123-141. -/
def addProducer (w : World) (producer : Producer) (roomName : Option String)
    (peerId : String) : World :=
  let w1 := { w with producers := w.producers ++
    [{ peerId := peerId, producer := producer, roomName := roomName }] }
  let peer := (getPeer w1 peerId).getD Peer.empty
  setPeer w1 peerId
    { peer.spread with producers := some (peer.producers.getD [] ++ [producer.id]) }

/-- The `producers.forEach` loop of `informConsumers` (lines 144-149):
`getPeer(producerData.peerId).socket.emit(...)` raises when the owner has no
Peer entry or the entry has no socket. -/
def informConsumersLoop (roomName : Option String) (peerId : String) (producerId : String) :
    List ProducerData → World → Outcome Unit
  | [], w => .ok () w
  | producerData :: rest, w =>
    if producerData.peerId ≠ peerId ∧ producerData.roomName = roomName then
      match getPeer w producerData.peerId with
      | none => .threw w
      | some owner =>
        match owner.socket with
        | none => .threw w
        | some producerSocket =>
          informConsumersLoop roomName peerId producerId rest
            { w with emitted := w.emitted ++
                [{ recipient := producerData.peerId, socket := producerSocket,
                   event := "new-producer", payload := producerId }] }
    else informConsumersLoop roomName peerId producerId rest w

/-- Lines 143-150. -/
def informConsumers (w : World) (roomName : Option String) (peerId : String)
    (producerId : String) : Outcome Unit :=
  informConsumersLoop roomName peerId producerId w.producers w

/-- Lines 152-169.  `produced` is the producer that `transport.produce(params)`
resolves to; the `transportclose` listener it gets is not modelled.  The value
returned is `undefined` without a transport and otherwise `transport`. -/
def createProducer (w : World) (roomName : Option String) (peerId : String)
    (transport : Option Transport) (produced : Producer) : Outcome (Option Transport) :=
  match transport with
  | none => .ok none w
  | some transport =>
    let producer := produced
    let w1 := addProducer w producer roomName peerId
    match informConsumers w1 roomName peerId producer.id with
    | .threw w2 => .threw w2
    | .ok _ w2 => .ok (some transport) w2

/-- Lines 187-205. -/
def addConsumer (w : World) (peerId : String) (roomName : Option String)
    (consumer : Consumer) : World :=
  let w1 := { w with consumers := w.consumers ++
    [{ peerId := peerId, consumer := consumer, roomName := roomName }] }
  let peer := (getPeer w1 peerId).getD Peer.empty
  setPeer w1 peerId
    { peer.spread with consumers := some (peer.consumers.getD [] ++ [consumer.id]) }

/-- Lines 170-185.  `consumed` is the consumer that `transport.consume(params)`
resolves to.  The `producerclose` listener registered here is `onProducerclose`. -/
def createConsumer (w : World) (roomName : Option String) (peerId : String)
    (_transport : Transport) (consumed : Consumer) : Consumer × World :=
  let consumer := consumed
  (consumer, addConsumer w peerId roomName consumer)

/-- Lines 212-214. -/
def getProducerTransport (w : World) (peerId : String) : Option Transport :=
  (w.transports.find? (fun transport =>
    decide (transport.peerId = peerId) && !transport.consumer)).map (fun td => td.transport)

/-- The method call `found.close()` on the result of `Array.prototype.find`:
on `undefined` the property read raises; on a registry record the property
`close` is read from the record itself, and no value a record holds is a
function. -/
def callClose {α : Type} [Item α] (w : World) : Option α → Outcome Unit
  | none => .threw w
  | some item =>
    match Item.prop item "close" with
    | .undefined => .threw w
    | .str _ => .threw w
    | .flag _ => .threw w
    | .handle _ => .threw w

/-- Lines 220-224. -/
def removeConsumer (w : World) (id : String) : Outcome Unit :=
  let consumer := w.consumers.find? (fun consumerData => decide (consumerData.consumer.id = id))
  match callClose w consumer with
  | .threw w1 => .threw w1
  | .ok _ w1 =>
    .ok () { w1 with consumers :=
      w1.consumers.filter (fun consumerData => decide (consumerData.consumer.id ≠ id)) }

/-- Lines 226-243. -/
def addTransport (w : World) (roomName : Option String) (peerId : String)
    (transport : Transport) (consumer : Bool) : World :=
  let w1 := { w with transports := w.transports ++
    [{ peerId := peerId, transport := transport, roomName := roomName, consumer := consumer }] }
  let peer := (getPeer w1 peerId).getD Peer.empty
  setPeer w1 peerId
    { peer.spread with transports := some (peer.transports.getD [] ++ [transport]) }

/-- Lines 245-249. -/
def removeTransport (w : World) (id : String) : Outcome Unit :=
  let transport := w.transports.find? (fun transportData =>
    decide (transportData.transport.id = id))
  match callClose w transport with
  | .threw w1 => .threw w1
  | .ok _ w1 =>
    .ok () { w1 with transports :=
      w1.transports.filter (fun transportData => decide (transportData.transport.id ≠ id)) }

/-- The `producerclose` listener that `createConsumer` registers on the
consumer (lines 176-180); `onProducerClosed` is the caller's callback. -/
def onProducerclose (w : World) (transport : Transport) (consumer : Consumer)
    (onProducerClosed : World → World) : Outcome Unit :=
  let w1 := onProducerClosed w
  match removeTransport w1 transport.id with
  | .threw w2 => .threw w2
  | .ok _ w2 => removeConsumer w2 consumer.id

/-! ## `socket.js` -/

/-- Acknowledgement of `transport-produce`: `{ id, producersExist }`. -/
structure ProduceAck where
  id : String
  producersExist : Bool
deriving DecidableEq, Repr

/-- The `joinRoom` handler (lines 48-63) up to the registration of the peer:
the registry it leaves.  When `createRoom` raises the handler ends there and
`setPeer` is not reached.  The acknowledgement is not modelled here. -/
def joinRoom (w : World) (worker : Option Worker) (socket : Socket)
    (roomName : Option String) : World :=
  match createRoom w worker roomName socket.id with
  | .threw w1 => w1
  | .ok _ w1 =>
    setPeer w1 socket.id
      { socket := some socket, roomName := some roomName, transports := some [],
        consumers := some [], producers := some [], peerDetails := some () }

/-- The `disconnect` handler (lines 65-67). -/
def disconnect (w : World) (socket : Socket) : Outcome Unit :=
  removePeer w socket.id

/-- The `transport-produce` handler (lines 98-108).  The variable the source
calls `producer` holds what `createProducer` returned. -/
def transportProduce (w : World) (socket : Socket) (produced : Producer) :
    Outcome ProduceAck :=
  match getPeer w socket.id with
  | none => .threw w
  | some peer =>
    let roomName := peer.roomName
    let producerTransport := getProducerTransport w socket.id
    match createProducer w roomName socket.id producerTransport produced with
    | .threw w1 => .threw w1
    | .ok producer w1 =>
      match producer with
      | none => .threw w1
      | some producer =>
        .ok { id := producer.id, producersExist := decide (w1.producers.length > 1) } w1

/-- The callback that the `consume` handler passes as `onProducerClosed`
(lines 142-144): `socket.emit('producer-closed', { remoteProducerId })`. -/
def emitProducerClosed (socket : Socket) (remoteProducerId : String) (w : World) : World :=
  { w with emitted := w.emitted ++
      [{ recipient := socket.id, socket := socket, event := "producer-closed",
         payload := remoteProducerId }] }

/-! ## Concrete registries, built by running the operations above -/

def worker0 : Option Worker := some { pid := 1 }

def socketA : Socket := { id := "A" }

def socketB : Socket := { id := "B" }

/-- Peers A and B have joined the fresh room r1. -/
def bothJoined : World :=
  joinRoom (joinRoom World.empty worker0 socketA (some "r1")) worker0 socketB (some "r1")

/-- In addition A has created its send transport t1. -/
def withSendTransport : World :=
  addTransport bothJoined (some "r1") "A" { id := "t1" } false

/-- In addition A has published: the engine created producer p1 on t1. -/
def published : World :=
  (transportProduce withSendTransport socketA { id := "p1" }).world

/-- In addition B has created the receive transport t2 and consumes p1 through
consumer c1. -/
def subscribed : World :=
  (createConsumer (addTransport published (some "r1") "B" { id := "t2" } true)
    (some "r1") "B" { id := "t2" } { id := "c1", producerId := "p1" }).2

/-- Registry after `addTransport` has run for a peer P that has no Peer entry
and a peer Q that never joined has been removed. -/
def staleEntry : World :=
  (removePeer (addTransport World.empty (some "r1") "P" { id := "t1" } false) "Q").world

/-- Registry after `addProducer` has run for a peer Z that has no Peer entry. -/
def staleProducer : World :=
  addProducer World.empty { id := "x1" } (some "r1") "Z"

/-! ## `mediasoup-utils.js`, continued -/

/-- Lines 92-117.  `created` is what `router.createWebRtcTransport(options)`
resolves to, `none` when the engine rejects; without a router the call raises
inside the `try`.  Either failure is rethrown as an `Error`.  The
`dtlsstatechange` listener registered here is `onDtlsstatechange`. -/
def createWebRtcTransport (w : World) (router : Option Router)
    (created : Option Transport) : Outcome Transport :=
  match router with
  | none => .threw w
  | some _ =>
    match created with
    | none => .threw w
    | some transport => .ok transport w

/-- The `dtlsstatechange` listener of a transport (lines 106-110).  The events
the engine fires by itself once the transport is closed reach no module
variable and are not modelled. -/
def onDtlsstatechange (w : World) (transport : Transport) (dtlsState : String) : World :=
  if dtlsState = "closed" then
    { w with closed := w.closed ++ [Handle.transport transport] }
  else w

/-- Lines 216-218: the registry record, not the transport. -/
def getConsumerTransport (w : World) (id : String) : Option TransportData :=
  w.transports.find? (fun transportData =>
    transportData.consumer && decide (transportData.transport.id = id))

/-- The `producers.forEach` loop of `getProducersInSameRoom` (lines 256-260),
pushing onto `list`. -/
def getProducersInSameRoomLoop (peerId : String) (roomName : Option String) :
    List ProducerData → List String → List String
  | [], list => list
  | producerData :: rest, list =>
    if producerData.peerId ≠ peerId ∧ producerData.roomName = roomName then
      getProducersInSameRoomLoop peerId roomName rest (list ++ [producerData.producer.id])
    else getProducersInSameRoomLoop peerId roomName rest list

/-- Lines 253-263.  The function assigns no module variable. -/
def getProducersInSameRoom (w : World) (peerId : String) (roomName : Option String) :
    List String :=
  getProducersInSameRoomLoop peerId roomName w.producers []

/-! ## `socket.js`, continued -/

/-- Acknowledgement payloads of `createWebRtcTransport` and `consume`:
`{ params: { id, ... } }` or `{ params: { error } }`.  For `consume`,
`producerId` is the `producerId` of the payload; `kind`, `rtpParameters` and
the ICE and DTLS parameters are not modelled. -/
inductive Ack where
  | params (id : String) (producerId : Option String)
  | error
deriving DecidableEq, Repr

/-- What one run of a handler did besides changing the registry: `acks` are the
invocations of the acknowledgement callback in order, `consumeCalls` the
producer ids for which `transport.consume` was called, `raised` whether the
handler ended in an uncaught exception. -/
structure HandlerRun where
  world : World
  acks : List Ack
  consumeCalls : List String
  raised : Bool
deriving DecidableEq, Repr

/-- The `createWebRtcTransport` handler (lines 69-92); `consumer` is the flag of
the request, `created` the engine's answer. -/
def createWebRtcTransportHandler (w : World) (socket : Socket) (consumer : Bool)
    (created : Option Transport) : HandlerRun :=
  match getPeer w socket.id with
  | none => { world := w, acks := [], consumeCalls := [], raised := true }
  | some peer =>
    let roomName := peer.roomName
    match getRoom w roomName with
    | none => { world := w, acks := [Ack.error], consumeCalls := [], raised := false }
    | some room =>
      match createWebRtcTransport w room.router created with
      | .threw w1 => { world := w1, acks := [Ack.error], consumeCalls := [], raised := false }
      | .ok transport w1 =>
        { world := addTransport w1 roomName socket.id transport consumer
          acks := [Ack.params transport.id none], consumeCalls := [], raised := false }

/-- The `getProducers` handler (lines 110-115); the value is the list handed
to the callback. -/
def getProducers (w : World) (socket : Socket) : Outcome (List String) :=
  match getPeer w socket.id with
  | none => .threw w
  | some peer =>
    let roomName := peer.roomName
    .ok (getProducersInSameRoom w socket.id roomName) w

/-- Payload of a `consume` request; `rtpCapabilities` is only passed on to the
engine. -/
structure ConsumeData where
  remoteProducerId : String
  serverConsumerTransportId : String
deriving DecidableEq, Repr

/-- The `consume` handler (lines 121-163).  `canConsume` is the answer of
`router.canConsume(consumeParams)`, `consumerId` the id of the consumer that
`transport.consume` resolves to for the requested producer, `none` when the
engine rejects.  The three reads ahead of the `try` raise out of the handler;
what raises inside the `try` is answered with an error payload.  The extra
`disconnect` listener the handler puts on the socket is not modelled. -/
def consume (w : World) (socket : Socket) (data : ConsumeData) (canConsume : Bool)
    (consumerId : Option String) : HandlerRun :=
  match getPeer w socket.id with
  | none => { world := w, acks := [], consumeCalls := [], raised := true }
  | some peer =>
    let roomName := peer.roomName
    match getRoom w roomName with
    | none => { world := w, acks := [], consumeCalls := [], raised := true }
    | some room =>
      let router := room.router
      match getConsumerTransport w data.serverConsumerTransportId with
      | none => { world := w, acks := [], consumeCalls := [], raised := true }
      | some transportData =>
        let consumerTransport := transportData.transport
        match router with
        | none => { world := w, acks := [Ack.error], consumeCalls := [], raised := false }
        | some _ =>
          if canConsume then
            match consumerId with
            | none =>
              { world := w, acks := [Ack.error], consumeCalls := [data.remoteProducerId],
                raised := false }
            | some id =>
              let created := createConsumer w roomName socket.id consumerTransport
                { id := id, producerId := data.remoteProducerId }
              { world := created.2
                acks := [Ack.params created.1.id (some data.remoteProducerId)]
                consumeCalls := [data.remoteProducerId], raised := false }
          else { world := w, acks := [], consumeCalls := [], raised := false }

/-! ## Sequences of registry events -/

/-- One registry event: a `joinRoom` request or a call of one of the exported
functions. -/
inductive Event where
  | joinRoom (worker : Option Worker) (socket : Socket) (roomName : Option String)
  | addTransport (roomName : Option String) (peerId : String) (transport : Transport)
      (consumer : Bool)
  | addProducer (producer : Producer) (roomName : Option String) (peerId : String)
  | addConsumer (peerId : String) (roomName : Option String) (consumer : Consumer)
  | removePeer (peerId : String)
deriving DecidableEq, Repr

/-- Registry after the event; for `removePeer`, whether it returned or raised. -/
def Event.apply (w : World) : Event → World
  | .joinRoom worker socket roomName => Mediasoup.joinRoom w worker socket roomName
  | .addTransport roomName peerId transport consumer =>
    Mediasoup.addTransport w roomName peerId transport consumer
  | .addProducer producer roomName peerId => Mediasoup.addProducer w producer roomName peerId
  | .addConsumer peerId roomName consumer => Mediasoup.addConsumer w peerId roomName consumer
  | .removePeer peerId => (Mediasoup.removePeer w peerId).world

/-- Registry after a sequence of events. -/
def run (w : World) (events : List Event) : World :=
  events.foldl Event.apply w

/-- Whether every event of the sequence passes `guard` in the state it is
applied to. -/
def allowed (guard : World → Event → Bool) : World → List Event → Bool
  | _, [] => true
  | w, e :: rest => guard w e && allowed guard (e.apply w) rest

/-- Whether `peerId` owns an entry of one of the three collections. -/
def ownsEntry (w : World) (peerId : String) : Bool :=
  w.transports.any (fun e => decide (e.peerId = peerId)) ||
  w.producers.any (fun e => decide (e.peerId = peerId)) ||
  w.consumers.any (fun e => decide (e.peerId = peerId))

/-- Events under which the peer index stays in step with the collections: a
`joinRoom` of a socket that owns no entry, and a `removePeer` that returns. -/
def indexGuard (w : World) : Event → Bool
  | .joinRoom _ socket _ => !ownsEntry w socket.id
  | .removePeer peerId => (removePeer w peerId).completed
  | _ => true

/-- Events as the handlers issue them: an addition is made for a peer that has
a Peer entry (the handlers read `getPeer(socket.id).roomName` first, which
raises without one). -/
def ownerGuard (w : World) : Event → Bool
  | .addTransport _ peerId _ _ => (getPeer w peerId).isSome
  | .addProducer _ _ peerId => (getPeer w peerId).isSome
  | .addConsumer peerId _ _ => (getPeer w peerId).isSome
  | _ => true

/-- Every Peer entry names a room that is stored with a membership list. -/
def RoomsListed (w : World) : Prop :=
  ∀ (p : String) (peer : Peer), getPeer w p = some peer →
    ∃ room members, getRoom w peer.roomName = some room ∧ room.peers = some members

/-- Events under which a peer stays in one room: a `joinRoom` of a socket that
has no Peer entry or joins the room of its entry again, and additions made
with the room name stored on the owner's Peer entry (`undefined` when there is
no entry), which is what the handlers pass. -/
def roomGuard (w : World) : Event → Bool
  | .joinRoom _ socket roomName =>
    match getPeer w socket.id with
    | none => true
    | some peer => decide (peer.roomName = roomName)
  | .addTransport roomName peerId _ _ =>
    decide ((getPeer w peerId).bind (fun peer => peer.roomName) = roomName)
  | .addProducer _ roomName peerId =>
    decide ((getPeer w peerId).bind (fun peer => peer.roomName) = roomName)
  | .addConsumer peerId roomName _ =>
    decide ((getPeer w peerId).bind (fun peer => peer.roomName) = roomName)
  | .removePeer _ => true

/-- The peer index agrees with the collections: an entry of `p` for an entity
exists exactly when the Peer entry of `p` lists the entity. -/
def IndexAgrees (w : World) : Prop :=
  (∀ (p : String) (t : Transport),
    (∃ e ∈ w.transports, e.peerId = p ∧ e.transport = t) ↔
      t ∈ ((getPeer w p).bind (fun peer => peer.transports)).getD []) ∧
  (∀ p id : String,
    (∃ e ∈ w.producers, e.peerId = p ∧ e.producer.id = id) ↔
      id ∈ ((getPeer w p).bind (fun peer => peer.producers)).getD []) ∧
  (∀ p id : String,
    (∃ e ∈ w.consumers, e.peerId = p ∧ e.consumer.id = id) ↔
      id ∈ ((getPeer w p).bind (fun peer => peer.consumers)).getD [])

/-- Every peer id in a membership list has a Peer entry whose room name is the
key of that room (so it is a member of one room at most), and every entry of
the three collections carries the room name of its owner's Peer entry. -/
def OneRoom (w : World) : Prop :=
  (∀ (p key : String) (room : Room) (members : List String),
    dictGet w.rooms key = some room → room.peers = some members → p ∈ members →
      ∃ peer, getPeer w p = some peer ∧ key = keyOf peer.roomName) ∧
  (∀ e ∈ w.transports, ∃ peer, getPeer w e.peerId = some peer ∧ e.roomName = peer.roomName) ∧
  (∀ e ∈ w.producers, ∃ peer, getPeer w e.peerId = some peer ∧ e.roomName = peer.roomName) ∧
  (∀ e ∈ w.consumers, ∃ peer, getPeer w e.peerId = some peer ∧ e.roomName = peer.roomName)

/-- The peer index as lists: for every peer id, what its Peer entry lists is
what the collections hold for it, in registration order (nothing when there is
no Peer entry). -/
def IndexLists (w : World) : Prop :=
  ∀ p : String,
    ((getPeer w p).bind (fun peer => peer.transports)).getD [] =
      (w.transports.filter (fun e => decide (e.peerId = p))).map (fun e => e.transport) ∧
    ((getPeer w p).bind (fun peer => peer.producers)).getD [] =
      (w.producers.filter (fun e => decide (e.peerId = p))).map (fun e => e.producer.id) ∧
    ((getPeer w p).bind (fun peer => peer.consumers)).getD [] =
      (w.consumers.filter (fun e => decide (e.peerId = p))).map (fun e => e.consumer.id)

/-! ## More concrete registries -/

/-- In `published`, B has created the receive transport t2. -/
def readyToConsume : World :=
  (createWebRtcTransportHandler published socketB true (some { id := "t2" })).world

/-- In `published`, A itself has created the receive transport t3. -/
def selfReady : World :=
  (createWebRtcTransportHandler published socketA true (some { id := "t3" })).world

/-- Two `createRoom` calls for the fresh room r1 that overlap: A's call finds no
room and awaits its router (index 0), B's call finds no room either and
awaits its router (index 1), then A's call resumes, then B's. -/
def overlappingJoins : World :=
  let first := createRouter World.empty worker0
  let second := createRouter first.world worker0
  let resumedA := createRoomResume second.world (some "r1") "A" { index := 0 }
  (createRoomResume resumedA.world (some "r1") "B" { index := 1 }).world

/-- A joins r1, creates a transport, and sends `joinRoom` for r1 again. -/
def rejoinEvents : List Event :=
  [Event.joinRoom worker0 socketA (some "r1"),
   Event.addTransport (some "r1") "A" { id := "t1" } false,
   Event.joinRoom worker0 socketA (some "r1")]

/-- A transport is added for P, which has no Peer entry; Q, which never joined,
is removed; then P is removed, and that call raises. -/
def raisingEvents : List Event :=
  [Event.addTransport (some "r1") "P" { id := "t1" } false,
   Event.removePeer "Q",
   Event.removePeer "P"]

/-- A joins r1 and then r2. -/
def twoRoomEvents : List Event :=
  [Event.joinRoom worker0 socketA (some "r1"), Event.joinRoom worker0 socketA (some "r2")]

/-- A joins r1 and a transport is added for A under the room name r2. -/
def otherRoomEvents : List Event :=
  [Event.joinRoom worker0 socketA (some "r1"),
   Event.addTransport (some "r2") "A" { id := "t1" } false]

/-- A and B join r1, each creates a send transport and publishes, B creates a
receive transport and consumes A's producer, then A leaves. -/
def sessionEvents : List Event :=
  [Event.joinRoom worker0 socketA (some "r1"),
   Event.joinRoom worker0 socketB (some "r1"),
   Event.addTransport (some "r1") "A" { id := "t1" } false,
   Event.addProducer { id := "p1" } (some "r1") "A",
   Event.addTransport (some "r1") "B" { id := "t2" } false,
   Event.addProducer { id := "p2" } (some "r1") "B",
   Event.addTransport (some "r1") "B" { id := "t3" } true,
   Event.addConsumer "B" (some "r1") { id := "c1", producerId := "p1" },
   Event.removePeer "A"]

/-- A and B have joined r1, both have published, and each consumes the other's
producer: B through c1, A through c2. -/
def crossSubscribed : World :=
  run World.empty
    [Event.joinRoom worker0 socketA (some "r1"),
     Event.joinRoom worker0 socketB (some "r1"),
     Event.addTransport (some "r1") "A" { id := "t1" } false,
     Event.addProducer { id := "p1" } (some "r1") "A",
     Event.addTransport (some "r1") "B" { id := "t2" } false,
     Event.addProducer { id := "p2" } (some "r1") "B",
     Event.addTransport (some "r1") "B" { id := "t3" } true,
     Event.addConsumer "B" (some "r1") { id := "c1", producerId := "p1" },
     Event.addTransport (some "r1") "A" { id := "t4" } true,
     Event.addConsumer "A" (some "r1") { id := "c2", producerId := "p2" }]

end Mediasoup

/-! ## Lemmas on the map operations -/

namespace Mediasoup

theorem dictGet_dictSet_same {α : Type} (d : List (String × α)) (k : String) (v : α) :
    dictGet (dictSet d k v) k = some v := by
  induction d with
  | nil => simp [dictSet, dictGet]
  | cons e rest ih =>
    obtain ⟨k0, x⟩ := e
    by_cases h : k0 = k
    · simp [dictSet, dictGet, h]
    · simp [dictSet, dictGet, h, ih]

theorem dictGet_dictSet_other {α : Type} (d : List (String × α)) (k k2 : String) (v : α)
    (hne : k2 ≠ k) : dictGet (dictSet d k v) k2 = dictGet d k2 := by
  induction d with
  | nil =>
    have h : ¬ k = k2 := fun h => hne h.symm
    simp [dictSet, dictGet, h]
  | cons e rest ih =>
    obtain ⟨k0, x⟩ := e
    by_cases h : k0 = k
    · subst h
      have h2 : ¬ k0 = k2 := fun h => hne h.symm
      simp [dictSet, dictGet, h2]
    · by_cases h3 : k0 = k2
      · subst h3
        simp [dictSet, dictGet, h]
      · simp [dictSet, dictGet, h, h3, ih]

theorem dictGet_dictDelete_same {α : Type} (d : List (String × α)) (k : String) :
    dictGet (dictDelete d k) k = none := by
  induction d with
  | nil => simp [dictDelete, dictGet]
  | cons e rest ih =>
    obtain ⟨k0, x⟩ := e
    simp only [dictDelete] at ih ⊢
    by_cases h : k0 = k
    · simp [List.filter_cons, h] at ih ⊢
      exact ih
    · simp [List.filter_cons, h, dictGet] at ih ⊢
      exact ih

theorem dictGet_dictDelete_other {α : Type} (d : List (String × α)) (k k2 : String)
    (hne : k2 ≠ k) : dictGet (dictDelete d k) k2 = dictGet d k2 := by
  induction d with
  | nil => simp [dictDelete, dictGet]
  | cons e rest ih =>
    obtain ⟨k0, x⟩ := e
    simp only [dictDelete] at ih ⊢
    by_cases h : k0 = k
    · subst h
      have h2 : ¬ k0 = k2 := fun h => hne h.symm
      simp [List.filter_cons, dictGet, h2] at ih ⊢
      exact ih
    · by_cases h3 : k0 = k2
      · subst h3
        simp [List.filter_cons, h, dictGet]
      · simp [List.filter_cons, h, dictGet, h3] at ih ⊢
        exact ih

/-! ## Lemmas on the `rooms` object -/

theorem roomsLookup_dictSet_same (rooms : List (String × Room)) (key : String)
    (room : Room) : roomsLookup (dictSet rooms key room) key = some room := by
  simp [roomsLookup, dictGet_dictSet_same]

/-- What was just written under a room name is what is read back. -/
theorem getRoom_setRoom_same (w : World) (r : Option String) (room : Room) :
    getRoom (setRoom w r room) r = some room := by
  simp [getRoom, setRoom, roomsLookup_dictSet_same]

/-- A stored room is read as itself. -/
theorem roomsLookup_of_stored (rooms : List (String × Room)) (key : String) (room : Room)
    (h : dictGet rooms key = some room) : roomsLookup rooms key = some room := by
  simp [roomsLookup, h]

/-- A read that yields a membership list comes from a stored room: inherited
values have none. -/
theorem roomsLookup_stored (rooms : List (String × Room)) (key : String) (room : Room)
    (members : List String) (h : roomsLookup rooms key = some room)
    (hm : room.peers = some members) : dictGet rooms key = some room := by
  unfold roomsLookup at h
  cases hown : dictGet rooms key with
  | some own =>
    simp only [hown] at h
    exact h
  | none =>
    exfalso
    simp only [hown] at h
    cases hproto : dictGet rooms "__proto__" with
    | none =>
      simp only [hproto] at h
      split at h
      · injection h with h
        subst h
        simp [Room.foreign] at hm
      · cases h
    | some proto =>
      simp only [hproto] at h
      repeat' split at h
      all_goals first
        | (injection h with h; subst h; simp [Room.foreign] at hm)
        | cases h

/-! ## Lemmas on `removeItems` -/

theorem prop_consumer_of_consumerData (item : ConsumerData) :
    Item.prop item "consumer" = JSVal.handle (Handle.consumer item.consumer) := by
  simp [Item.prop]

theorem prop_transports_of_transportData (item : TransportData) :
    Item.prop item "transports" = JSVal.undefined := by
  simp [Item.prop]

theorem prop_producers_of_producerData (item : ProducerData) :
    Item.prop item "producers" = JSVal.undefined := by
  simp [Item.prop]

/-- The loop over `consumers` with key `'consumer'` closes the consumer of
every entry owned by `peerId`, in order, and nothing else. -/
theorem removeItemsLoop_consumers (peerId : String) (arr : List ConsumerData) (w : World) :
    removeItemsLoop peerId "consumer" arr w =
      .ok ()
        { w with
          closed := w.closed ++
            (arr.filter (fun item => decide (item.peerId = peerId))).map
              (fun item => Handle.consumer item.consumer) } := by
  induction arr generalizing w with
  | nil => simp [removeItemsLoop]
  | cons item rest ih =>
    by_cases h : item.peerId = peerId
    · have h2 : Item.peerId item = peerId := h
      simp [removeItemsLoop, h2, prop_consumer_of_consumerData, optClose, ih, h,
        List.filter_cons]
    · have h2 : ¬ Item.peerId item = peerId := h
      simp [removeItemsLoop, h2, ih, h, List.filter_cons]

/-- The loop over `transports` with key `'transports'` closes nothing: the
entries have no property of that name. -/
theorem removeItemsLoop_transports (peerId : String) (arr : List TransportData) (w : World) :
    removeItemsLoop peerId "transports" arr w = .ok () w := by
  induction arr generalizing w with
  | nil => simp [removeItemsLoop]
  | cons item rest ih =>
    by_cases h : Item.peerId item = peerId
    · simp [removeItemsLoop, h, prop_transports_of_transportData, optClose, ih]
    · simp [removeItemsLoop, h, ih]

/-- The loop over `producers` with key `'producers'` closes nothing: the
entries have no property of that name. -/
theorem removeItemsLoop_producers (peerId : String) (arr : List ProducerData) (w : World) :
    removeItemsLoop peerId "producers" arr w = .ok () w := by
  induction arr generalizing w with
  | nil => simp [removeItemsLoop]
  | cons item rest ih =>
    by_cases h : Item.peerId item = peerId
    · simp [removeItemsLoop, h, prop_producers_of_producerData, optClose, ih]
    · simp [removeItemsLoop, h, ih]

/-- State that `removePeer` has reached once its three `removeItems` calls are
done, and what it does from there. -/
theorem removePeer_eq (w : World) (peerId : String) :
    removePeer w peerId =
      (match getRoom w ((getPeer w peerId).bind (fun peer => peer.roomName)) with
      | none =>
        .ok ()
          { rooms := dictSet w.rooms
              (keyOf ((getPeer w peerId).bind (fun peer => peer.roomName)))
              { router := none, peers := none }
            peers := dictDelete w.peers peerId
            transports := w.transports.filter (fun item => decide (item.peerId ≠ peerId))
            producers := w.producers.filter (fun item => decide (item.peerId ≠ peerId))
            consumers := w.consumers.filter (fun item => decide (item.peerId ≠ peerId))
            closed := w.closed ++
              (w.consumers.filter (fun item => decide (item.peerId = peerId))).map
                (fun item => Handle.consumer item.consumer)
            emitted := w.emitted
            routersCreated := w.routersCreated }
      | some room =>
        match room.peers with
        | none =>
          .threw
            { rooms := w.rooms
              peers := w.peers
              transports := w.transports.filter (fun item => decide (item.peerId ≠ peerId))
              producers := w.producers.filter (fun item => decide (item.peerId ≠ peerId))
              consumers := w.consumers.filter (fun item => decide (item.peerId ≠ peerId))
              closed := w.closed ++
                (w.consumers.filter (fun item => decide (item.peerId = peerId))).map
                  (fun item => Handle.consumer item.consumer)
              emitted := w.emitted
              routersCreated := w.routersCreated }
        | some _ =>
          .ok ()
            { rooms := dictSet w.rooms
                (keyOf ((getPeer w peerId).bind (fun peer => peer.roomName)))
                { router := room.router, peers := some [] }
              peers := dictDelete w.peers peerId
              transports := w.transports.filter (fun item => decide (item.peerId ≠ peerId))
              producers := w.producers.filter (fun item => decide (item.peerId ≠ peerId))
              consumers := w.consumers.filter (fun item => decide (item.peerId ≠ peerId))
              closed := w.closed ++
                (w.consumers.filter (fun item => decide (item.peerId = peerId))).map
                  (fun item => Handle.consumer item.consumer)
              emitted := w.emitted
              routersCreated := w.routersCreated }) := by
  simp only [removePeer, removeItems, removeItemsLoop_consumers, removeItemsLoop_transports,
    removeItemsLoop_producers, getRoom, getPeer, setRoom]
  cases hroom : roomsLookup w.rooms
      (keyOf ((dictGet w.peers peerId).bind fun peer => peer.roomName)) with
  | none => rfl
  | some room =>
    cases hmem : room.peers with
    | none =>
      simp [hmem]
      exact ⟨rfl, rfl, rfl⟩
    | some members =>
      simp [hmem]
      exact ⟨rfl, rfl, rfl⟩

/-! ## `removePeer` -/

/-- Whether `removePeer` returns or raises, the three collections hold no entry
of the peer afterwards. -/
theorem removePeer_owned_entries_gone (w : World) (p : String) :
    (∀ item ∈ (removePeer w p).world.transports, item.peerId ≠ p) ∧
    (∀ item ∈ (removePeer w p).world.producers, item.peerId ≠ p) ∧
    (∀ item ∈ (removePeer w p).world.consumers, item.peerId ≠ p) := by
  rw [removePeer_eq]
  cases getRoom w ((getPeer w p).bind (fun peer => peer.roomName)) with
  | none => simp [Outcome.world]
  | some room =>
    cases hmem : room.peers with
    | none => simp [hmem, Outcome.world]
    | some members => simp [hmem, Outcome.world]

/-- When `removePeer` returns, the peers map has no entry for the peer. -/
theorem removePeer_completed_peer_gone (w w2 : World) (p : String)
    (h : removePeer w p = .ok () w2) : getPeer w2 p = none := by
  rw [removePeer_eq] at h
  cases hroom : getRoom w ((getPeer w p).bind (fun peer => peer.roomName)) with
  | none =>
    rw [hroom] at h
    simp only [Outcome.ok.injEq, true_and] at h
    subst h
    simp [getPeer, dictGet_dictDelete_same]
  | some room =>
    rw [hroom] at h
    cases hmem : room.peers with
    | none => simp [hmem] at h
    | some members =>
      simp only [hmem, Outcome.ok.injEq, true_and] at h
      subst h
      simp [getPeer, dictGet_dictDelete_same]

/-- The close calls of `removePeer` are exactly the consumers of the entries the
peer owns, in registration order: no transport and no producer is closed. -/
theorem removePeer_closed (w : World) (p : String) :
    (removePeer w p).world.closed = w.closed ++
      (w.consumers.filter (fun item => decide (item.peerId = p))).map
        (fun item => Handle.consumer item.consumer) := by
  rw [removePeer_eq]
  cases getRoom w ((getPeer w p).bind (fun peer => peer.roomName)) with
  | none => simp [Outcome.world]
  | some room =>
    cases hmem : room.peers with
    | none => simp [hmem, Outcome.world]
    | some members => simp [hmem, Outcome.world]

/-- Claim C1: when peer `p` has a Peer entry with room name `r` and occurs in the
membership list of room `r`, `removePeer p` returns and the membership list of
`r` afterwards has no occurrence of `p`. -/
theorem removePeer_clears_own_membership (w : World) (p : String) (r : Option String)
    (peer : Peer) (room : Room) (members : List String)
    (hpeer : getPeer w p = some peer) (hr : peer.roomName = r)
    (hroom : getRoom w r = some room) (hmem : room.peers = some members)
    (_hp : p ∈ members) :
    ∃ w2, removePeer w p = .ok () w2 ∧
      ∃ room2 members2, getRoom w2 r = some room2 ∧ room2.peers = some members2 ∧
        p ∉ members2 := by
  have hname : (getPeer w p).bind (fun peer => peer.roomName) = r := by
    simp [hpeer, hr]
  rw [removePeer_eq, hname, hroom]
  simp only [hmem]
  refine ⟨_, rfl, { router := room.router, peers := some [] }, [], ?_, rfl, by simp⟩
  simp [getRoom, roomsLookup_dictSet_same]

/-- Claim C1 at the registry where A and B have joined r1: removing A leaves a
membership list of r1 without A. -/
theorem removePeer_clears_own_membership_witness :
    ∃ w2, removePeer bothJoined "A" = .ok () w2 ∧
      ∃ room2 members2, getRoom w2 (some "r1") = some room2 ∧
        room2.peers = some members2 ∧ "A" ∉ members2 :=
  removePeer_clears_own_membership bothJoined "A" (some "r1")
    { socket := some { id := "A" }, roomName := some "r1", transports := some [],
      consumers := some [], producers := some [], peerDetails := some () }
    { router := some { index := 0 }, peers := some ["A", "B"] } ["A", "B"]
    (by decide) rfl (by decide) rfl (by decide)

/-- At the level of the module alone, outside what the handlers do: in
`staleEntry` the Peer entry of P was made by `addTransport` and names no room;
`removePeer "P"` raises at `room?.peers.filter` and the Peer entry of P is still
there afterwards. -/
theorem removePeer_raise_keeps_peer_entry :
    (getPeer staleEntry "P").isSome = true ∧
    (removePeer staleEntry "P").completed = false ∧
    (getPeer (removePeer staleEntry "P").world "P").isSome = true := by
  decide

/-- Claim C3 fails at `subscribed`: A owns transport t1 and producer p1;
`removePeer "A"` drops both entries and records no close call at all, while
`removePeer "B"` does close B's consumer c1 (and not B's transport t2). -/
theorem removePeer_closes_no_transport_or_producer :
    (∃ item ∈ subscribed.transports, item.peerId = "A" ∧ item.transport = { id := "t1" }) ∧
    (∃ item ∈ subscribed.producers, item.peerId = "A" ∧ item.producer = { id := "p1" }) ∧
    (removePeer subscribed "A").completed = true ∧
    (removePeer subscribed "A").world.closed = [] ∧
    (removePeer subscribed "A").world.transports =
      [{ peerId := "B", transport := { id := "t2" }, roomName := some "r1", consumer := true }] ∧
    (removePeer subscribed "A").world.producers = [] ∧
    (removePeer subscribed "B").world.closed =
      [Handle.consumer { id := "c1", producerId := "p1" }] := by
  decide

/-- Claim C4 fails at `subscribed`: A owns producer p1 and B's consumer c1
references p1; after `removePeer "A"` has returned, the consumers collection still
holds B's entry referencing p1. -/
theorem removePeer_keeps_foreign_consumer :
    (∃ item ∈ subscribed.producers, item.peerId = "A" ∧ item.producer.id = "p1") ∧
    (removePeer subscribed "A").completed = true ∧
    (∃ item ∈ (removePeer subscribed "A").world.consumers,
      item.peerId = "B" ∧ item.consumer.producerId = "p1") := by
  decide

/-- Claim C5 fails on the empty registry: Q has no Peer entry, `removePeer "Q"`
returns but stores a room under the key "undefined"; a second `removePeer "Q"`
raises on that room.  After A has left `bothJoined`, removing A again changes
the registry once more. -/
theorem removePeer_unknown_peer_writes_room_then_raises :
    getPeer World.empty "Q" = none ∧
    (removePeer World.empty "Q").completed = true ∧
    (removePeer World.empty "Q").world.rooms =
      [("undefined", { router := none, peers := none })] ∧
    (removePeer World.empty "Q").world.rooms ≠ World.empty.rooms ∧
    getPeer (removePeer World.empty "Q").world "Q" = none ∧
    (removePeer (removePeer World.empty "Q").world "Q").completed = false ∧
    (removePeer (removePeer bothJoined "A").world "A").world ≠
      (removePeer bothJoined "A").world := by
  decide

/-! ## `informConsumers` -/

/-- The loop returns when every eligible entry has an owner with a socket, and
then emits one notification per eligible entry, in registration order. -/
theorem informConsumersLoop_ok (r : Option String) (p producerId : String)
    (arr : List ProducerData) (w : World)
    (h : ∀ pd ∈ arr, pd.peerId ≠ p → pd.roomName = r →
      ((getPeer w pd.peerId).bind (fun peer => peer.socket)).isSome = true) :
    ∃ news : List Emit,
      informConsumersLoop r p producerId arr w =
        .ok () { w with emitted := w.emitted ++ news } ∧
      news.map (fun e => e.recipient) =
        (arr.filter (fun pd => decide (pd.peerId ≠ p ∧ pd.roomName = r))).map
          (fun pd => pd.peerId) ∧
      ∀ e ∈ news, e.event = "new-producer" ∧ e.payload = producerId := by
  induction arr generalizing w with
  | nil => exact ⟨[], by simp [informConsumersLoop], by simp, by simp⟩
  | cons pd rest ih =>
    by_cases hc : pd.peerId ≠ p ∧ pd.roomName = r
    · have hs := h pd (by simp) hc.1 hc.2
      obtain ⟨peer, hpeer⟩ : ∃ peer, getPeer w pd.peerId = some peer := by
        cases hg : getPeer w pd.peerId with
        | none => simp [hg] at hs
        | some peer => exact ⟨peer, rfl⟩
      obtain ⟨sock, hsock⟩ : ∃ sock, peer.socket = some sock := by
        cases hk : peer.socket with
        | none => simp [hpeer, hk] at hs
        | some sock => exact ⟨sock, rfl⟩
      obtain ⟨news, hrun, hrec, hpay⟩ := ih
        { w with emitted := w.emitted ++
            [{ recipient := pd.peerId, socket := sock, event := "new-producer",
               payload := producerId }] }
        (fun pd2 hmem h1 h2 => h pd2 (List.mem_cons_of_mem _ hmem) h1 h2)
      refine ⟨{ recipient := pd.peerId, socket := sock, event := "new-producer",
                payload := producerId } :: news, ?_, ?_, ?_⟩
      · rw [informConsumersLoop, if_pos hc]
        simp only [hpeer, hsock]
        rw [hrun]
        simp
      · simp [List.filter_cons, hc, hrec]
      · intro e he
        rcases List.mem_cons.mp he with rfl | he
        · exact ⟨rfl, rfl⟩
        · exact hpay e he
    · obtain ⟨news, hrun, hrec, hpay⟩ := ih w
        (fun pd2 hmem h1 h2 => h pd2 (List.mem_cons_of_mem _ hmem) h1 h2)
      refine ⟨news, ?_, ?_, hpay⟩
      · rw [informConsumersLoop, if_neg hc]
        exact hrun
      · simp only [List.filter_cons, hc, decide_False]
        exact hrec

/-- Claim C6 fails at `staleProducer`: Z is not the publisher P and owns a
producer entry of room r1, but its Peer entry has no socket, so
`informConsumers` raises and nobody is notified. -/
theorem informConsumers_raises_on_socketless_owner :
    ¬ (∀ q, (∃ e ∈ (informConsumers staleProducer (some "r1") "P" "p2").world.emitted,
            e.event = "new-producer" ∧ e.recipient = q) ↔
        (q ≠ "P" ∧ ∃ pd ∈ staleProducer.producers,
          pd.peerId = q ∧ pd.roomName = some "r1")) := by
  intro h
  have hz := (h "Z").mpr (by decide)
  revert hz
  decide

/-- Claim C6, amended: in a registry where every producer entry of room `r`
owned by a peer other than `p` belongs to a Peer entry that holds a socket,
`informConsumers r p producerId` returns, changes nothing but the emission log,
and the peers it emits to are exactly the peers other than `p` that own a
producer entry with room name `r`; a peer whose producers are all in other
rooms is not notified, and every notification is `new-producer` carrying
`producerId`. -/
theorem informConsumers_notifies_exactly (w : World) (r : Option String)
    (p producerId : String)
    (hwf : ∀ pd ∈ w.producers, pd.peerId ≠ p → pd.roomName = r →
      ((getPeer w pd.peerId).bind (fun peer => peer.socket)).isSome = true) :
    ∃ news : List Emit,
      informConsumers w r p producerId = .ok () { w with emitted := w.emitted ++ news } ∧
      (∀ q, (∃ e ∈ news, e.recipient = q) ↔
        (q ≠ p ∧ ∃ pd ∈ w.producers, pd.peerId = q ∧ pd.roomName = r)) ∧
      (∀ q, (∀ pd ∈ w.producers, pd.peerId = q → pd.roomName ≠ r) →
        ¬ ∃ e ∈ news, e.recipient = q) ∧
      (∀ e ∈ news, e.event = "new-producer" ∧ e.payload = producerId) := by
  obtain ⟨news, hrun, hrec, hpay⟩ := informConsumersLoop_ok r p producerId w.producers w hwf
  have hiff : ∀ q, (∃ e ∈ news, e.recipient = q) ↔
      (q ≠ p ∧ ∃ pd ∈ w.producers, pd.peerId = q ∧ pd.roomName = r) := by
    intro q
    have h1 : (∃ e ∈ news, e.recipient = q) ↔ q ∈ news.map (fun e => e.recipient) := by
      simp [List.mem_map]
    rw [h1, hrec]
    simp only [List.mem_map, List.mem_filter, decide_eq_true_eq]
    constructor
    · rintro ⟨pd, ⟨hmem, hne, hroom⟩, rfl⟩
      exact ⟨hne, pd, hmem, rfl, hroom⟩
    · rintro ⟨hne, pd, hmem, rfl, hroom⟩
      exact ⟨pd, ⟨hmem, hne, hroom⟩, rfl⟩
  refine ⟨news, hrun, hiff, ?_, hpay⟩
  intro q hall hex
  obtain ⟨_, pd, hmem, hq, hroom⟩ := (hiff q).mp hex
  exact hall pd hmem hq hroom

/-- Claim C6, amended, at `published`: when B publishes p2 in r1, where A owns
producer p1, the notified peers are those other than B owning a producer of r1. -/
theorem informConsumers_notifies_exactly_witness :
    ∃ news : List Emit,
      informConsumers published (some "r1") "B" "p2" =
        .ok () { published with emitted := published.emitted ++ news } ∧
      (∀ q, (∃ e ∈ news, e.recipient = q) ↔
        (q ≠ "B" ∧ ∃ pd ∈ published.producers, pd.peerId = q ∧ pd.roomName = some "r1")) ∧
      (∀ q, (∀ pd ∈ published.producers, pd.peerId = q → pd.roomName ≠ some "r1") →
        ¬ ∃ e ∈ news, e.recipient = q) ∧
      (∀ e ∈ news, e.event = "new-producer" ∧ e.payload = "p2") :=
  informConsumers_notifies_exactly published (some "r1") "B" "p2" (by decide)

/-! ## `transport-produce` -/

/-- What `createProducer` returns, when it returns, is its `transport` argument. -/
theorem createProducer_value (w w2 : World) (r : Option String) (p : String)
    (transport : Option Transport) (produced : Producer) (val : Option Transport)
    (h : createProducer w r p transport produced = .ok val w2) : val = transport := by
  cases transport with
  | none =>
    simp [createProducer] at h
    exact h.1.symm
  | some t =>
    simp only [createProducer] at h
    cases hi : informConsumers (addProducer w produced r p) r p produced.id with
    | threw w3 => simp [hi] at h
    | ok u w3 =>
      simp [hi] at h
      exact h.1.symm

/-- Whenever the handler acknowledges, the id it sends is the id of the peer's
send transport. -/
theorem transportProduce_ack_id (w w2 : World) (socket : Socket) (produced : Producer)
    (ack : ProduceAck) (h : transportProduce w socket produced = .ok ack w2) :
    ∃ t, getProducerTransport w socket.id = some t ∧ ack.id = t.id := by
  simp only [transportProduce] at h
  cases hp : getPeer w socket.id with
  | none => simp [hp] at h
  | some peer =>
    simp only [hp] at h
    cases hc : createProducer w peer.roomName socket.id (getProducerTransport w socket.id)
        produced with
    | threw w3 => simp [hc] at h
    | ok val w3 =>
      have hv := createProducer_value _ _ _ _ _ _ _ hc
      simp only [hc] at h
      cases val with
      | none => simp at h
      | some t =>
        simp at h
        exact ⟨t, hv.symm, by rw [← h.1]⟩

/-- Claim C7 fails at `withSendTransport`: A publishes on its send transport t1
and the engine creates producer p1; `addProducer` registers p1 in the producers
collection and in A's producers list, but the acknowledgement carries the id
t1. -/
theorem transportProduce_acks_transport_id :
    getProducerTransport withSendTransport "A" = some { id := "t1" } ∧
    (transportProduce withSendTransport socketA { id := "p1" }).completed = true ∧
    (∃ w2, transportProduce withSendTransport socketA { id := "p1" } =
        .ok { id := "t1", producersExist := false } w2 ∧
      w2.producers = [{ peerId := "A", producer := { id := "p1" }, roomName := some "r1" }] ∧
      (getPeer w2 "A").bind (fun peer => peer.producers) = some ["p1"] ∧
      (∀ item ∈ w2.producers, item.producer.id ≠ "t1")) := by
  refine ⟨by decide, by decide,
    (transportProduce withSendTransport socketA { id := "p1" }).world,
    by decide, by decide, by decide, by decide⟩

/-! ## `createRoom` -/

/-- Claim C8 fails at `bothJoined`: room r1 exists with membership [A, B];
`createRoom` for A again leaves [A, B, A], two occurrences of A. -/
theorem createRoom_rejoin_duplicates :
    (getRoom bothJoined (some "r1")).bind (fun room => room.peers) = some ["A", "B"] ∧
    (getRoom (createRoom bothJoined worker0 (some "r1") "A").world (some "r1")).bind
      (fun room => room.peers) = some ["A", "B", "A"] ∧
    List.count "A" ["A", "B", "A"] ≠ 1 := by
  decide

/-- Claim C8, amended: when room `r` exists and `p` is already in its
membership list, `createRoom worker r p` leaves the membership list of `r`
equal to the previous list with `p` appended, so that `p` occurs once more than
before. -/
theorem createRoom_rejoin_appends (w : World) (worker : Option Worker)
    (r : Option String) (p : String) (room : Room) (members : List String)
    (hroom : getRoom w r = some room) (hmem : room.peers = some members)
    (_hp : p ∈ members) :
    ∃ room2, getRoom (createRoom w worker r p).world r = some room2 ∧
      room2.peers = some (members ++ [p]) ∧
      List.count p (members ++ [p]) = List.count p members + 1 := by
  refine ⟨{ router := room.router, peers := some (members ++ [p]) }, ?_, rfl, by simp⟩
  simp only [createRoom, hroom, hmem, Outcome.world]
  simp [getRoom_setRoom_same]

/-- Claim C8, amended, at `bothJoined` with A joining r1 again. -/
theorem createRoom_rejoin_appends_witness :
    ∃ room2, getRoom (createRoom bothJoined worker0 (some "r1") "A").world (some "r1") =
        some room2 ∧
      room2.peers = some (["A", "B"] ++ ["A"]) ∧
      List.count "A" (["A", "B"] ++ ["A"]) = List.count "A" ["A", "B"] + 1 :=
  createRoom_rejoin_appends bothJoined worker0 (some "r1") "A"
    { router := some { index := 0 }, peers := some ["A", "B"] } ["A", "B"]
    (by decide) rfl (by decide)

/-- The three paths of `createRoom`.  When the read `rooms[roomName]` is
truthy, no router is created and the room written and returned has the
`router` of what was read and its membership, an absent list counting as
empty, extended with `p`.  When the read is `undefined` and there is a worker,
one router is created and the room is written and returned with that router
and membership `[p]`.  When the read is `undefined` and there is no worker
yet, the call raises and writes nothing. -/
theorem createRoom_paths (w : World) (r : Option String) (p : String) :
    (∀ (worker : Option Worker) (room : Room), getRoom w r = some room →
      createRoom w worker r p =
        .ok (some { router := room.router, peers := some (room.peers.getD [] ++ [p]) })
          (setRoom w r { router := room.router, peers := some (room.peers.getD [] ++ [p]) })) ∧
    (∀ worker : Worker, getRoom w r = none →
      createRoom w (some worker) r p =
        .ok (some { router := some { index := w.routersCreated }, peers := some [p] })
          (setRoom { w with routersCreated := w.routersCreated + 1 } r
            { router := some { index := w.routersCreated }, peers := some [p] })) ∧
    (getRoom w r = none → createRoom w none r p = .threw w) := by
  refine ⟨?_, ?_, ?_⟩
  · intro worker room h
    simp only [createRoom, h]
    simp [getRoom_setRoom_same]
  · intro worker h
    simp only [createRoom, h, createRouter, createRoomResume]
    simp [getRoom_setRoom_same]
  · intro h
    simp only [createRoom, h, createRouter]

/-- Claim C9 fails on the empty registry for the room name `constructor`: no
room is stored, yet `rooms['constructor']` reads the inherited member, so
`createRoom` takes the branch of an existing room, creates no router and
registers the room with router `undefined`.  It also fails for two joins of the
fresh room r1 that overlap at `await createRouter`: both calls find no room,
two routers are created, A is handed router 0 and B router 1, and the room is
left with router 1 and membership [B]. -/
theorem createRoom_inherited_name_creates_no_router :
    World.empty.rooms = [] ∧
    createRoom World.empty worker0 (some "constructor") "A" =
      .ok (some { router := none, peers := some ["A"] })
        { World.empty with
          rooms := [("constructor", { router := none, peers := some ["A"] })] } ∧
    (createRoom World.empty worker0 (some "constructor") "A").world.routersCreated = 0 ∧
    getRoom World.empty (some "r1") = none ∧
    createRouter World.empty worker0 =
      .ok { index := 0 } { World.empty with routersCreated := 1 } ∧
    getRoom (createRouter World.empty worker0).world (some "r1") = none ∧
    createRouter (createRouter World.empty worker0).world worker0 =
      .ok { index := 1 } { World.empty with routersCreated := 2 } ∧
    createRoomResume { World.empty with routersCreated := 2 } (some "r1") "A" { index := 0 } =
      .ok (some { router := some { index := 0 }, peers := some ["A"] })
        { World.empty with
          rooms := [("r1", { router := some { index := 0 }, peers := some ["A"] })]
          routersCreated := 2 } ∧
    overlappingJoins.routersCreated = 2 ∧
    getRoom overlappingJoins (some "r1") =
      some { router := some { index := 1 }, peers := some ["B"] } := by
  decide

/-! ## The `producerclose` listener -/

/-- The call `found.close()` raises whatever `find` returned. -/
theorem callClose_raises {α : Type} [Item α] (w : World) (found : Option α) :
    callClose w found = .threw w := by
  cases found with
  | none => rfl
  | some item =>
    simp only [callClose]
    cases Item.prop item "close" <;> rfl

theorem removeTransport_raises (w : World) (id : String) :
    removeTransport w id = .threw w := by
  simp [removeTransport, callClose_raises]

theorem removeConsumer_raises (w : World) (id : String) :
    removeConsumer w id = .threw w := by
  simp [removeConsumer, callClose_raises]

/-- The listener runs the callback once and then raises inside
`removeTransport`, in the state the callback left. -/
theorem onProducerclose_raises (w : World) (transport : Transport) (consumer : Consumer)
    (onProducerClosed : World → World) :
    onProducerclose w transport consumer onProducerClosed = .threw (onProducerClosed w) := by
  simp [onProducerclose, removeTransport_raises]

/-- Claim C10 fails at `subscribed`: B's consumer c1 was created on the
registered receive transport t2; when its `producerclose` listener runs it
emits `producer-closed` once and then raises, and the registry still holds the
consumers entry of c1 and the transports entry of t2. -/
theorem onProducerclose_raises_before_teardown :
    (∃ item ∈ subscribed.consumers, item.peerId = "B" ∧
      item.consumer = { id := "c1", producerId := "p1" }) ∧
    (∃ item ∈ subscribed.transports, item.peerId = "B" ∧ item.transport = { id := "t2" } ∧
      item.consumer = true) ∧
    (onProducerclose subscribed { id := "t2" } { id := "c1", producerId := "p1" }
      (emitProducerClosed socketB "p1")).completed = false ∧
    (onProducerclose subscribed { id := "t2" } { id := "c1", producerId := "p1" }
      (emitProducerClosed socketB "p1")).world.emitted =
        [{ recipient := "B", socket := socketB, event := "producer-closed", payload := "p1" }] ∧
    (∃ item ∈ (onProducerclose subscribed { id := "t2" } { id := "c1", producerId := "p1" }
        (emitProducerClosed socketB "p1")).world.consumers, item.consumer.id = "c1") ∧
    (∃ item ∈ (onProducerclose subscribed { id := "t2" } { id := "c1", producerId := "p1" }
        (emitProducerClosed socketB "p1")).world.transports, item.transport.id = "t2") := by
  decide

/-! ## The `consume` handler -/

/-- With a joined peer, a room that has a router and a registered receive
transport, a request that `canConsume` answers with false gets no
acknowledgement, and the handler does not raise either. -/
theorem consume_refused_no_ack (w : World) (socket : Socket) (data : ConsumeData)
    (consumerId : Option String) (peer : Peer) (room : Room) (router : Router)
    (transportData : TransportData)
    (hpeer : getPeer w socket.id = some peer) (hroom : getRoom w peer.roomName = some room)
    (hrouter : room.router = some router)
    (htransport : getConsumerTransport w data.serverConsumerTransportId = some transportData) :
    (consume w socket data false consumerId).acks = [] ∧
    (consume w socket data false consumerId).raised = false := by
  simp [consume, hpeer, hroom, hrouter, htransport]

/-- Claim C11 fails at `readyToConsume`: B is joined, its room has a router and
t2 is its registered receive transport; when `canConsume` answers false the
handler ends without calling the acknowledgement callback at all, whereas a
rejected `transport.consume` is answered with an error payload. -/
theorem consume_refused_is_silent :
    (getPeer readyToConsume "B").isSome = true ∧
    ((getRoom readyToConsume (some "r1")).bind (fun room => room.router)).isSome = true ∧
    (getConsumerTransport readyToConsume "t2").isSome = true ∧
    (consume readyToConsume socketB
      { remoteProducerId := "p1", serverConsumerTransportId := "t2" } false (some "c1")).acks
        = [] ∧
    (consume readyToConsume socketB
      { remoteProducerId := "p1", serverConsumerTransportId := "t2" } false (some "c1")).raised
        = false ∧
    (consume readyToConsume socketB
      { remoteProducerId := "p1", serverConsumerTransportId := "t2" } true none).acks
        = [Ack.error] := by
  decide

/-- Claim C12: for every registry state and every `consume` request that
`canConsume` answers with false, the state after the handler, the five
collections included, is the state before it, and `transport.consume` is not
called. -/
theorem consume_refused_changes_nothing (w : World) (socket : Socket) (data : ConsumeData)
    (consumerId : Option String) :
    (consume w socket data false consumerId).world = w ∧
    (consume w socket data false consumerId).consumeCalls = [] := by
  unfold consume
  cases getPeer w socket.id with
  | none => exact ⟨rfl, rfl⟩
  | some peer =>
    simp only
    cases getRoom w peer.roomName with
    | none => exact ⟨rfl, rfl⟩
    | some room =>
      simp only
      cases getConsumerTransport w data.serverConsumerTransportId with
      | none => exact ⟨rfl, rfl⟩
      | some td =>
        simp only
        cases room.router with
        | none => exact ⟨rfl, rfl⟩
        | some router => exact ⟨rfl, rfl⟩

theorem consumers_addConsumer (w : World) (p : String) (r : Option String) (c : Consumer) :
    (addConsumer w p r c).consumers =
      w.consumers ++ [{ peerId := p, consumer := c, roomName := r }] := by
  simp [addConsumer, setPeer]

/-- Claim C18 fails at `selfReady`: the only producers entry with id p1 belongs
to A; A's `consume` request for p1, accepted by `canConsume`, registers a
consumer of p1 for A itself. -/
theorem consume_accepts_own_producer :
    (∀ pd ∈ selfReady.producers, pd.producer.id = "p1" → pd.peerId = "A") ∧
    (consume selfReady socketA
      { remoteProducerId := "p1", serverConsumerTransportId := "t3" } true (some "c9")).acks =
        [Ack.params "c9" (some "p1")] ∧
    (consume selfReady socketA
      { remoteProducerId := "p1", serverConsumerTransportId := "t3" } true
        (some "c9")).world.consumers =
        [{ peerId := "A", consumer := { id := "c9", producerId := "p1" },
           roomName := some "r1" }] ∧
    ¬ (∃ pd ∈ (consume selfReady socketA
        { remoteProducerId := "p1", serverConsumerTransportId := "t3" } true
          (some "c9")).world.producers,
        pd.producer.id = "p1" ∧ pd.roomName = some "r1" ∧ pd.peerId ≠ "A") := by
  decide

/-- Claim C18, amended: a `consume` request that changes the consumers
collection was accepted by `canConsume`, and what it registers is one entry
with the requesting peer's id, the room name of that peer's entry and a
consumer of the requested producer id. -/
theorem consume_registers_for_requester (w : World) (socket : Socket) (data : ConsumeData)
    (canConsume : Bool) (consumerId : Option String)
    (hreg : (consume w socket data canConsume consumerId).world.consumers ≠ w.consumers) :
    canConsume = true ∧
    ∃ (peer : Peer) (id : String), getPeer w socket.id = some peer ∧ consumerId = some id ∧
      (consume w socket data canConsume consumerId).world.consumers =
        w.consumers ++
          [{ peerId := socket.id, consumer := { id := id, producerId := data.remoteProducerId },
             roomName := peer.roomName }] := by
  unfold consume at hreg ⊢
  cases hpeer : getPeer w socket.id with
  | none => simp [hpeer] at hreg
  | some peer =>
    simp only [hpeer] at hreg ⊢
    cases hroom : getRoom w peer.roomName with
    | none => simp [hroom] at hreg
    | some room =>
      simp only [hroom] at hreg ⊢
      cases htd : getConsumerTransport w data.serverConsumerTransportId with
      | none => simp [htd] at hreg
      | some td =>
        simp only [htd] at hreg ⊢
        cases hrouter : room.router with
        | none => simp [hrouter] at hreg
        | some router =>
          simp only [hrouter] at hreg ⊢
          cases canConsume with
          | false => simp at hreg
          | true =>
            cases consumerId with
            | none => simp at hreg
            | some id =>
              refine ⟨rfl, peer, id, rfl, rfl, ?_⟩
              simp [createConsumer, consumers_addConsumer]

/-- Claim C18, amended, at `readyToConsume`: B's accepted request for p1 on its
receive transport t2 registers one entry for B. -/
theorem consume_registers_for_requester_witness :
    true = true ∧
    ∃ (peer : Peer) (id : String), getPeer readyToConsume socketB.id = some peer ∧
      some "c1" = some id ∧
      (consume readyToConsume socketB
        { remoteProducerId := "p1", serverConsumerTransportId := "t2" } true
          (some "c1")).world.consumers =
        readyToConsume.consumers ++
          [{ peerId := socketB.id,
             consumer := { id := id, producerId :=
               ({ remoteProducerId := "p1", serverConsumerTransportId := "t2" } :
                 ConsumeData).remoteProducerId },
             roomName := peer.roomName }] :=
  consume_registers_for_requester readyToConsume socketB
    { remoteProducerId := "p1", serverConsumerTransportId := "t2" } true (some "c1")
    (by decide)

/-! ## `getProducersInSameRoom` -/

theorem getProducersInSameRoomLoop_eq (p : String) (r : Option String)
    (arr : List ProducerData) (list : List String) :
    getProducersInSameRoomLoop p r arr list =
      list ++ (arr.filter (fun pd => decide (pd.peerId ≠ p ∧ pd.roomName = r))).map
        (fun pd => pd.producer.id) := by
  induction arr generalizing list with
  | nil => simp [getProducersInSameRoomLoop]
  | cons pd rest ih =>
    by_cases hc : pd.peerId ≠ p ∧ pd.roomName = r
    · rw [getProducersInSameRoomLoop, if_pos hc, ih]
      simp [List.filter_cons, hc]
    · rw [getProducersInSameRoomLoop, if_neg hc, ih]
      simp only [List.filter_cons, hc, decide_False]
      rfl

/-- Claim C13: `getProducersInSameRoom p r` is the list of the producer ids of
the producers entries with room name `r` and an owner other than `p`, in
registration order, one element per entry; every element comes from such an
entry, and, producer ids being distinct across entries, no element is the id
of a producer of `p` or of another room.  The function has no effect on the
registry, and the `getProducers` handler that calls it leaves the state as it
was. -/
theorem getProducersInSameRoom_lists_room_mates (w : World) (p : String)
    (r : Option String) :
    getProducersInSameRoom w p r =
      (w.producers.filter (fun pd => decide (pd.peerId ≠ p ∧ pd.roomName = r))).map
        (fun pd => pd.producer.id) ∧
    (∀ id ∈ getProducersInSameRoom w p r,
      ∃ pd ∈ w.producers, pd.producer.id = id ∧ pd.peerId ≠ p ∧ pd.roomName = r) ∧
    ((w.producers.map (fun pd => pd.producer.id)).Nodup →
      ∀ pd ∈ w.producers, (pd.peerId = p ∨ pd.roomName ≠ r) →
        pd.producer.id ∉ getProducersInSameRoom w p r) ∧
    (∀ socket : Socket, (getProducers w socket).world = w) := by
  have heq : getProducersInSameRoom w p r =
      (w.producers.filter (fun pd => decide (pd.peerId ≠ p ∧ pd.roomName = r))).map
        (fun pd => pd.producer.id) := by
    simp [getProducersInSameRoom, getProducersInSameRoomLoop_eq]
  have hmem : ∀ id ∈ getProducersInSameRoom w p r,
      ∃ pd ∈ w.producers, pd.producer.id = id ∧ pd.peerId ≠ p ∧ pd.roomName = r := by
    intro id hid
    rw [heq] at hid
    simp only [List.mem_map, List.mem_filter, decide_eq_true_eq] at hid
    obtain ⟨pd, ⟨hin, hne, hroom⟩, rfl⟩ := hid
    exact ⟨pd, hin, rfl, hne, hroom⟩
  refine ⟨heq, hmem, ?_, ?_⟩
  · intro hnodup pd hin hcase hid
    obtain ⟨pd2, hin2, hsame, hne, hroom⟩ := hmem _ hid
    have hpd : pd2 = pd := List.inj_on_of_nodup_map hnodup hin2 hin hsame
    subst hpd
    rcases hcase with h | h
    · exact hne h
    · exact h hroom
  · intro socket
    unfold getProducers
    cases getPeer w socket.id <;> rfl

/-- Claim C13 at `crossSubscribed`, asked by A for r1: the ids of A's own producers are
not in the answer. -/
theorem getProducersInSameRoom_lists_room_mates_witness :
    ∀ pd ∈ crossSubscribed.producers, (pd.peerId = "A" ∨ pd.roomName ≠ some "r1") →
      pd.producer.id ∉ getProducersInSameRoom crossSubscribed "A" (some "r1") :=
  (getProducersInSameRoom_lists_room_mates crossSubscribed "A" (some "r1")).2.2.1 (by decide)

/-! ## The `dtlsstatechange` listener -/

/-- Claim C14 fails at `readyToConsume`: t2 was created by the
`createWebRtcTransport` handler and registered; after `dtlsstatechange` with
state `closed` the transports collection still holds its entry and
`getConsumerTransport` still returns it, and likewise `getProducerTransport`
still returns A's send transport t1 after t1 was signalled closed. -/
theorem dtls_closed_keeps_transport_entry :
    (createWebRtcTransportHandler published socketB true (some { id := "t2" })).acks =
      [Ack.params "t2" none] ∧
    (∃ e ∈ (onDtlsstatechange readyToConsume { id := "t2" } "closed").transports,
      e.transport.id = "t2") ∧
    (getConsumerTransport (onDtlsstatechange readyToConsume { id := "t2" } "closed") "t2").map
      (fun e => e.transport) = some { id := "t2" } ∧
    getProducerTransport (onDtlsstatechange readyToConsume { id := "t1" } "closed") "A" =
      some { id := "t1" } := by
  decide

/-- Claim C14, amended: for a transport registered with `addTransport`, the
`dtlsstatechange` listener called with state `closed` calls `close` on the
transport and leaves the transports collection as it was: the entry of the
transport is still there, and `getProducerTransport` and `getConsumerTransport`
return what they returned before. -/
theorem dtls_closed_only_closes_handle (w : World) (roomName : Option String)
    (peerId : String) (transport : Transport) (consumer : Bool) :
    (onDtlsstatechange (addTransport w roomName peerId transport consumer) transport
        "closed").closed =
      (addTransport w roomName peerId transport consumer).closed ++
        [Handle.transport transport] ∧
    (onDtlsstatechange (addTransport w roomName peerId transport consumer) transport
        "closed").transports =
      (addTransport w roomName peerId transport consumer).transports ∧
    (∃ e ∈ (onDtlsstatechange (addTransport w roomName peerId transport consumer) transport
        "closed").transports, e.peerId = peerId ∧ e.transport = transport) ∧
    (∀ q, getProducerTransport
        (onDtlsstatechange (addTransport w roomName peerId transport consumer) transport
          "closed") q =
      getProducerTransport (addTransport w roomName peerId transport consumer) q) ∧
    (∀ id, getConsumerTransport
        (onDtlsstatechange (addTransport w roomName peerId transport consumer) transport
          "closed") id =
      getConsumerTransport (addTransport w roomName peerId transport consumer) id) := by
  refine ⟨by simp [onDtlsstatechange], by simp [onDtlsstatechange], ?_, ?_, ?_⟩
  · refine ⟨{ peerId := peerId, transport := transport, roomName := roomName,
              consumer := consumer }, ?_, rfl, rfl⟩
    simp [onDtlsstatechange, addTransport, setPeer]
  · intro q
    simp [onDtlsstatechange, getProducerTransport]
  · intro id
    simp [onDtlsstatechange, getConsumerTransport]

/-! ## Who is notified of a publish -/

/-- Whether the loop returns or raises, every notification it has emitted went
to the owner, other than the publisher, of a producer entry of the room. -/
theorem informConsumersLoop_sound (r : Option String) (p producerId : String)
    (arr : List ProducerData) (w : World) :
    ∃ news : List Emit,
      (informConsumersLoop r p producerId arr w).world.emitted = w.emitted ++ news ∧
      ∀ e ∈ news, ∃ pd ∈ arr, pd.peerId = e.recipient ∧ pd.peerId ≠ p ∧ pd.roomName = r := by
  induction arr generalizing w with
  | nil => exact ⟨[], by simp [informConsumersLoop, Outcome.world], by simp⟩
  | cons pd rest ih =>
    by_cases hc : pd.peerId ≠ p ∧ pd.roomName = r
    · rw [informConsumersLoop, if_pos hc]
      cases hpeer : getPeer w pd.peerId with
      | none => exact ⟨[], by simp [Outcome.world], by simp⟩
      | some owner =>
        cases hsock : owner.socket with
        | none => exact ⟨[], by simp [hsock, Outcome.world], by simp⟩
        | some sock =>
          simp only [hsock]
          obtain ⟨news, hrun, hall⟩ := ih
            { w with emitted := w.emitted ++
                [{ recipient := pd.peerId, socket := sock, event := "new-producer",
                   payload := producerId }] }
          refine ⟨{ recipient := pd.peerId, socket := sock, event := "new-producer",
                    payload := producerId } :: news, ?_, ?_⟩
          · rw [hrun]
            simp
          · intro e he
            rcases List.mem_cons.mp he with rfl | he
            · exact ⟨pd, by simp, rfl, hc.1, hc.2⟩
            · obtain ⟨pd2, hin, h1, h2, h3⟩ := hall e he
              exact ⟨pd2, List.mem_cons_of_mem _ hin, h1, h2, h3⟩
    · rw [informConsumersLoop, if_neg hc]
      obtain ⟨news, hrun, hall⟩ := ih w
      refine ⟨news, hrun, ?_⟩
      intro e he
      obtain ⟨pd2, hin, h1, h2, h3⟩ := hall e he
      exact ⟨pd2, List.mem_cons_of_mem _ hin, h1, h2, h3⟩

theorem emitted_addProducer (w : World) (producer : Producer) (r : Option String)
    (p : String) : (addProducer w producer r p).emitted = w.emitted := by
  simp [addProducer, setPeer]

theorem producers_addProducer (w : World) (producer : Producer) (r : Option String)
    (p : String) : (addProducer w producer r p).producers =
      w.producers ++ [{ peerId := p, producer := producer, roomName := r }] := by
  simp [addProducer, setPeer]

/-- Claim C15 fails in its own scenario: A and B have joined the fresh room r1,
nobody has published, A has its send transport; A's publish returns, and the
number of `new-producer` notifications to B is not one (none is emitted). -/
theorem first_publish_notifies_nobody :
    bothJoined.producers = [] ∧
    (transportProduce withSendTransport socketA { id := "p1" }).completed = true ∧
    ((transportProduce withSendTransport socketA { id := "p1" }).world.emitted.filter
      (fun e => decide (e.recipient = "B" ∧ e.event = "new-producer"))).length ≠ 1 := by
  decide

/-- Claim C15, amended: a peer `q` that owns no producers entry, as B in the
scenario, receives nothing from a publish: whatever `transport-produce` emits
goes to other peers. -/
theorem publish_skips_peer_without_producer (w : World) (socket : Socket)
    (produced : Producer) (q : String)
    (hq : ∀ pd ∈ w.producers, pd.peerId ≠ q) :
    ∃ news : List Emit,
      (transportProduce w socket produced).world.emitted = w.emitted ++ news ∧
      ∀ e ∈ news, e.recipient ≠ q := by
  unfold transportProduce
  cases getPeer w socket.id with
  | none => exact ⟨[], by simp [Outcome.world], by simp⟩
  | some peer =>
    simp only
    cases ht : getProducerTransport w socket.id with
    | none => exact ⟨[], by simp [createProducer, Outcome.world], by simp⟩
    | some t =>
      obtain ⟨news, hrun, hall⟩ := informConsumersLoop_sound peer.roomName socket.id
        produced.id (addProducer w produced peer.roomName socket.id).producers
        (addProducer w produced peer.roomName socket.id)
      rw [emitted_addProducer] at hrun
      have hnews : ∀ e ∈ news, e.recipient ≠ q := by
        intro e he heq
        obtain ⟨pd, hin, h1, h2, _⟩ := hall e he
        rw [producers_addProducer] at hin
        rcases List.mem_append.mp hin with hin | hin
        · exact hq pd hin (h1.trans heq)
        · simp only [List.mem_singleton] at hin
          subst hin
          exact h2 rfl
      refine ⟨news, ?_, hnews⟩
      simp only [createProducer, informConsumers]
      cases hloop : informConsumersLoop peer.roomName socket.id produced.id
          (addProducer w produced peer.roomName socket.id).producers
          (addProducer w produced peer.roomName socket.id) with
      | threw w2 =>
        rw [hloop] at hrun
        simpa [Outcome.world] using hrun
      | ok u w2 =>
        rw [hloop] at hrun
        simpa [Outcome.world] using hrun

/-- Claim C15, amended, in the scenario itself: A's first publish emits nothing
to B. -/
theorem publish_skips_peer_without_producer_witness :
    ∃ news : List Emit,
      (transportProduce withSendTransport socketA { id := "p1" }).world.emitted =
        withSendTransport.emitted ++ news ∧
      ∀ e ∈ news, e.recipient ≠ "B" :=
  publish_skips_peer_without_producer withSendTransport socketA { id := "p1" } "B"
    (by decide)

/-! ## `addProducer` for a peer without entry -/

/-- Claim C19 fails on the empty registry: Z has no Peer entry, and
`addProducer` for Z changes the producers collection, creates a Peer entry for
Z and closes nothing. -/
theorem addProducer_registers_for_absent_peer :
    getPeer World.empty "Z" = none ∧
    (addProducer World.empty { id := "x1" } (some "r1") "Z").producers ≠
      World.empty.producers ∧
    (getPeer (addProducer World.empty { id := "x1" } (some "r1") "Z") "Z").isSome = true ∧
    (addProducer World.empty { id := "x1" } (some "r1") "Z").closed = [] := by
  decide

/-- Claim C19, amended: when `peerId` has no Peer entry,
`addProducer producer roomName peerId` registers the producer all the same:
the producers collection gains the entry at its end, a Peer entry for `peerId`
is created whose only property is `producers = [producer.id]`, and no handle is
closed. -/
theorem addProducer_creates_peer_entry (w : World) (producer : Producer)
    (roomName : Option String) (peerId : String) (hnone : getPeer w peerId = none) :
    (addProducer w producer roomName peerId).producers =
      w.producers ++ [{ peerId := peerId, producer := producer, roomName := roomName }] ∧
    getPeer (addProducer w producer roomName peerId) peerId =
      some { socket := none, roomName := none, transports := none, consumers := none,
             producers := some [producer.id], peerDetails := none } ∧
    (addProducer w producer roomName peerId).closed = w.closed := by
  have hnone2 : dictGet w.peers peerId = none := hnone
  refine ⟨by simp [addProducer, setPeer], ?_, by simp [addProducer, setPeer]⟩
  simp [addProducer, setPeer, getPeer, hnone2, dictGet_dictSet_same, Peer.empty, Peer.assign,
    Peer.spread]

/-- Claim C19, amended, on the empty registry with peer Z. -/
theorem addProducer_creates_peer_entry_witness :
    (addProducer World.empty { id := "x1" } (some "r1") "Z").producers =
      World.empty.producers ++
        [{ peerId := "Z", producer := { id := "x1" }, roomName := some "r1" }] ∧
    getPeer (addProducer World.empty { id := "x1" } (some "r1") "Z") "Z" =
      some { socket := none, roomName := none, transports := none, consumers := none,
             producers := some [({ id := "x1" } : Producer).id], peerDetails := none } ∧
    (addProducer World.empty { id := "x1" } (some "r1") "Z").closed = World.empty.closed :=
  addProducer_creates_peer_entry World.empty { id := "x1" } (some "r1") "Z" (by decide)

/-! ## What `removePeer` leaves alone -/

theorem removePeer_other_peer (w : World) (p q : String) (hne : q ≠ p) :
    getPeer (removePeer w p).world q = getPeer w q := by
  rw [removePeer_eq]
  cases getRoom w ((getPeer w p).bind (fun peer => peer.roomName)) with
  | none => simp [Outcome.world, getPeer, dictGet_dictDelete_other _ _ _ hne]
  | some room =>
    cases hmem : room.peers with
    | none => simp [hmem, Outcome.world, getPeer]
    | some members =>
      simp [hmem, Outcome.world, getPeer, dictGet_dictDelete_other _ _ _ hne]

theorem removePeer_collections (w : World) (p : String) :
    (removePeer w p).world.transports =
      w.transports.filter (fun item => decide (item.peerId ≠ p)) ∧
    (removePeer w p).world.producers =
      w.producers.filter (fun item => decide (item.peerId ≠ p)) ∧
    (removePeer w p).world.consumers =
      w.consumers.filter (fun item => decide (item.peerId ≠ p)) := by
  rw [removePeer_eq]
  cases getRoom w ((getPeer w p).bind (fun peer => peer.roomName)) with
  | none => simp [Outcome.world]
  | some room =>
    cases hmem : room.peers with
    | none => simp [hmem, Outcome.world]
    | some members => simp [hmem, Outcome.world]

/-- Claim C20: whether `removePeer p` returns or raises, the entries of the
three collections owned by other peers are those present before, in the same
order; the close calls it makes are the consumers of `p`'s own consumers
entries, so no transport and no producer is closed and, no consumer being
registered both for `p` and for another peer, no consumer of another peer
either; and the Peer entry of every other peer is unchanged. -/
theorem removePeer_frame (w : World) (p : String) :
    (removePeer w p).world.transports.filter (fun item => decide (item.peerId ≠ p)) =
      w.transports.filter (fun item => decide (item.peerId ≠ p)) ∧
    (removePeer w p).world.producers.filter (fun item => decide (item.peerId ≠ p)) =
      w.producers.filter (fun item => decide (item.peerId ≠ p)) ∧
    (removePeer w p).world.consumers.filter (fun item => decide (item.peerId ≠ p)) =
      w.consumers.filter (fun item => decide (item.peerId ≠ p)) ∧
    (removePeer w p).world.closed = w.closed ++
      (w.consumers.filter (fun item => decide (item.peerId = p))).map
        (fun item => Handle.consumer item.consumer) ∧
    (∀ t : Transport, Handle.transport t ∉
      (w.consumers.filter (fun item => decide (item.peerId = p))).map
        (fun item => Handle.consumer item.consumer)) ∧
    (∀ pr : Producer, Handle.producer pr ∉
      (w.consumers.filter (fun item => decide (item.peerId = p))).map
        (fun item => Handle.consumer item.consumer)) ∧
    ((∀ e1 ∈ w.consumers, ∀ e2 ∈ w.consumers, e1.peerId = p → e2.peerId ≠ p →
        e1.consumer ≠ e2.consumer) →
      ∀ e ∈ w.consumers, e.peerId ≠ p → Handle.consumer e.consumer ∉
        (w.consumers.filter (fun item => decide (item.peerId = p))).map
          (fun item => Handle.consumer item.consumer)) ∧
    (∀ q, q ≠ p → getPeer (removePeer w p).world q = getPeer w q) := by
  obtain ⟨ht, hp, hc⟩ := removePeer_collections w p
  have hnews : ∀ h ∈ (w.consumers.filter (fun item => decide (item.peerId = p))).map
      (fun item => Handle.consumer item.consumer),
      ∃ e ∈ w.consumers, e.peerId = p ∧ h = Handle.consumer e.consumer := by
    intro h hh
    simp only [List.mem_map, List.mem_filter, decide_eq_true_eq] at hh
    obtain ⟨e, ⟨hin, hown⟩, rfl⟩ := hh
    exact ⟨e, hin, hown, rfl⟩
  refine ⟨by rw [ht, List.filter_filter]; simp, by rw [hp, List.filter_filter]; simp,
    by rw [hc, List.filter_filter]; simp, removePeer_closed w p, ?_, ?_, ?_,
    fun q hne => removePeer_other_peer w p q hne⟩
  · intro t ht2
    obtain ⟨e, _, _, h⟩ := hnews _ ht2
    cases h
  · intro pr hp2
    obtain ⟨e, _, _, h⟩ := hnews _ hp2
    cases h
  · intro hdistinct e hin hne hmem
    obtain ⟨e1, hin1, hown, h⟩ := hnews _ hmem
    have heq : e1.consumer = e.consumer := by
      injection h with h
      exact h.symm
    exact hdistinct e1 hin1 e hin hown hne heq

/-- Claim C20 at `crossSubscribed`: removing A, whose consumer c2 is closed, closes no
consumer of another peer. -/
theorem removePeer_frame_witness :
    ∀ e ∈ crossSubscribed.consumers, e.peerId ≠ "A" → Handle.consumer e.consumer ∉
      (crossSubscribed.consumers.filter (fun item => decide (item.peerId = "A"))).map
        (fun item => Handle.consumer item.consumer) :=
  (removePeer_frame crossSubscribed "A").2.2.2.2.2.2.1 (by decide)

/-! ## The peer index along event sequences -/

theorem getPeer_setPeer_same (w : World) (id : String) (patch : PeerPatch) :
    getPeer (setPeer w id patch) id =
      some (((getPeer w id).getD Peer.empty).assign patch) := by
  simp [getPeer, setPeer, dictGet_dictSet_same]

theorem getPeer_setPeer_other (w : World) (id q : String) (patch : PeerPatch)
    (hne : q ≠ id) : getPeer (setPeer w id patch) q = getPeer w q := by
  simp [getPeer, setPeer, dictGet_dictSet_other _ _ _ _ hne]

theorem assign_spread_transports (old : Peer) (l : List Transport) :
    old.assign { old.spread with transports := some l } = { old with transports := some l } := by
  obtain ⟨s, r, t, c, p, d⟩ := old
  cases s <;> cases r <;> cases c <;> cases p <;> cases d <;> rfl

theorem assign_spread_producers (old : Peer) (l : List String) :
    old.assign { old.spread with producers := some l } = { old with producers := some l } := by
  obtain ⟨s, r, t, c, p, d⟩ := old
  cases s <;> cases r <;> cases t <;> cases c <;> cases d <;> rfl

theorem assign_spread_consumers (old : Peer) (l : List String) :
    old.assign { old.spread with consumers := some l } = { old with consumers := some l } := by
  obtain ⟨s, r, t, c, p, d⟩ := old
  cases s <;> cases r <;> cases t <;> cases p <;> cases d <;> rfl

/-- The state after `addTransport`, with the spread of the old entry resolved. -/
theorem addTransport_eq (w : World) (r : Option String) (p : String) (t : Transport)
    (c : Bool) :
    addTransport w r p t c =
      { w with
        transports := w.transports ++
          [{ peerId := p, transport := t, roomName := r, consumer := c }]
        peers := dictSet w.peers p
          { (getPeer w p).getD Peer.empty with
            transports := some (((getPeer w p).bind (fun peer => peer.transports)).getD []
              ++ [t]) } } := by
  simp only [addTransport, setPeer, getPeer, assign_spread_transports]
  cases dictGet w.peers p <;> rfl

theorem addProducer_eq (w : World) (producer : Producer) (r : Option String) (p : String) :
    addProducer w producer r p =
      { w with
        producers := w.producers ++ [{ peerId := p, producer := producer, roomName := r }]
        peers := dictSet w.peers p
          { (getPeer w p).getD Peer.empty with
            producers := some (((getPeer w p).bind (fun peer => peer.producers)).getD []
              ++ [producer.id]) } } := by
  simp only [addProducer, setPeer, getPeer, assign_spread_producers]
  cases dictGet w.peers p <;> rfl

theorem addConsumer_eq (w : World) (p : String) (r : Option String) (c : Consumer) :
    addConsumer w p r c =
      { w with
        consumers := w.consumers ++ [{ peerId := p, consumer := c, roomName := r }]
        peers := dictSet w.peers p
          { (getPeer w p).getD Peer.empty with
            consumers := some (((getPeer w p).bind (fun peer => peer.consumers)).getD []
              ++ [c.id]) } } := by
  simp only [addConsumer, setPeer, getPeer, assign_spread_consumers]
  cases dictGet w.peers p <;> rfl

/-- The state after `joinRoom`.  Either `createRoom` raised (no room is read
and there is no worker yet) and nothing changed, or the room was written with
the membership read before extended with the socket id, and the Peer entry was
written: the literal of the handler has every property, so nothing of an older
Peer entry survives. -/
theorem joinRoom_cases (w : World) (worker : Option Worker) (socket : Socket)
    (r : Option String) :
    joinRoom w worker socket r = w ∨
    ∃ (router : Option Router) (n : Nat), joinRoom w worker socket r =
      { w with
        rooms := dictSet w.rooms (keyOf r)
          { router := router
            peers := some (((getRoom w r).bind (fun room => room.peers)).getD []
              ++ [socket.id]) }
        peers := dictSet w.peers socket.id
          { socket := some socket, roomName := r, transports := some [],
            consumers := some [], producers := some [], peerDetails := some () }
        routersCreated := n } := by
  unfold joinRoom createRoom
  cases hroom : getRoom w r with
  | some room => exact Or.inr ⟨room.router, w.routersCreated, rfl⟩
  | none =>
    cases worker with
    | none => exact Or.inl rfl
    | some wk => exact Or.inr ⟨some { index := w.routersCreated }, w.routersCreated + 1, rfl⟩

theorem IndexLists_addTransport (w : World) (r : Option String) (p : String)
    (t : Transport) (c : Bool) (h : IndexLists w) : IndexLists (addTransport w r p t c) := by
  intro q
  obtain ⟨h1, h2, h3⟩ := h q
  rw [addTransport_eq]
  by_cases hq : q = p
  · subst hq
    simp only [getPeer, dictGet_dictSet_same] at h1 h2 h3 ⊢
    refine ⟨?_, ?_, ?_⟩
    · simp [List.filter_append, h1]
    · rw [← h2]
      cases dictGet w.peers q <;> rfl
    · rw [← h3]
      cases dictGet w.peers q <;> rfl
  · have hpq : ¬ p = q := fun h => hq h.symm
    simp only [getPeer, dictGet_dictSet_other _ _ _ _ hq] at h1 h2 h3 ⊢
    refine ⟨?_, h2, h3⟩
    simp [List.filter_append, hpq, h1]

theorem IndexLists_addProducer (w : World) (producer : Producer) (r : Option String)
    (p : String) (h : IndexLists w) : IndexLists (addProducer w producer r p) := by
  intro q
  obtain ⟨h1, h2, h3⟩ := h q
  rw [addProducer_eq]
  by_cases hq : q = p
  · subst hq
    simp only [getPeer, dictGet_dictSet_same] at h1 h2 h3 ⊢
    refine ⟨?_, ?_, ?_⟩
    · rw [← h1]
      cases dictGet w.peers q <;> rfl
    · simp [List.filter_append, h2]
    · rw [← h3]
      cases dictGet w.peers q <;> rfl
  · have hpq : ¬ p = q := fun h => hq h.symm
    simp only [getPeer, dictGet_dictSet_other _ _ _ _ hq] at h1 h2 h3 ⊢
    refine ⟨h1, ?_, h3⟩
    simp [List.filter_append, hpq, h2]

theorem IndexLists_addConsumer (w : World) (p : String) (r : Option String)
    (c : Consumer) (h : IndexLists w) : IndexLists (addConsumer w p r c) := by
  intro q
  obtain ⟨h1, h2, h3⟩ := h q
  rw [addConsumer_eq]
  by_cases hq : q = p
  · subst hq
    simp only [getPeer, dictGet_dictSet_same] at h1 h2 h3 ⊢
    refine ⟨?_, ?_, ?_⟩
    · rw [← h1]
      cases dictGet w.peers q <;> rfl
    · rw [← h2]
      cases dictGet w.peers q <;> rfl
    · simp [List.filter_append, h3]
  · have hpq : ¬ p = q := fun h => hq h.symm
    simp only [getPeer, dictGet_dictSet_other _ _ _ _ hq] at h1 h2 h3 ⊢
    refine ⟨h1, h2, ?_⟩
    simp [List.filter_append, hpq, h3]

theorem ownsEntry_false (w : World) (p : String) (h : ownsEntry w p = false) :
    w.transports.filter (fun e => decide (e.peerId = p)) = [] ∧
    w.producers.filter (fun e => decide (e.peerId = p)) = [] ∧
    w.consumers.filter (fun e => decide (e.peerId = p)) = [] := by
  simp only [ownsEntry, Bool.or_eq_false_iff, List.any_eq_false, decide_eq_true_eq] at h
  obtain ⟨⟨ht, hp⟩, hc⟩ := h
  refine ⟨?_, ?_, ?_⟩ <;> simp only [List.filter_eq_nil_iff, decide_eq_true_eq]
  · exact ht
  · exact hp
  · exact hc

theorem IndexLists_joinRoom (w : World) (worker : Option Worker) (socket : Socket)
    (r : Option String) (hown : ownsEntry w socket.id = false) (h : IndexLists w) :
    IndexLists (joinRoom w worker socket r) := by
  rcases joinRoom_cases w worker socket r with hsame | ⟨router, n, hjoin⟩
  · rw [hsame]
    exact h
  intro q
  obtain ⟨h1, h2, h3⟩ := h q
  rw [hjoin]
  simp only [getPeer] at h1 h2 h3 ⊢
  by_cases hq : q = socket.id
  · subst hq
    obtain ⟨o1, o2, o3⟩ := ownsEntry_false w socket.id hown
    simp [dictGet_dictSet_same, o1, o2, o3]
  · simp only [dictGet_dictSet_other _ _ _ _ hq]
    exact ⟨h1, h2, h3⟩

theorem IndexLists_removePeer (w w2 : World) (p : String)
    (hok : removePeer w p = .ok () w2) (h : IndexLists w) : IndexLists w2 := by
  intro q
  obtain ⟨h1, h2, h3⟩ := h q
  have hw : (removePeer w p).world = w2 := by rw [hok]; rfl
  obtain ⟨ct, cp, cc⟩ := removePeer_collections w p
  rw [hw] at ct cp cc
  rw [ct, cp, cc]
  by_cases hq : q = p
  · subst hq
    rw [removePeer_completed_peer_gone w w2 q hok]
    simp [List.filter_filter]
  · have hg : getPeer w2 q = getPeer w q := by
      rw [← hw]
      exact removePeer_other_peer w p q hq
    rw [hg, h1, h2, h3]
    have himp : ∀ x : String, x = q → ¬ x = p := fun x hx hp => hq (hx.symm.trans hp)
    refine ⟨?_, ?_, ?_⟩ <;>
      · rw [List.filter_filter]
        congr 1
        apply List.filter_congr
        intro e _
        by_cases he : e.peerId = q
        · simp [he, hq]
        · simp [he]

theorem IndexLists_empty : IndexLists World.empty := by
  intro q
  simp [World.empty, getPeer, dictGet]

theorem IndexAgrees_of_IndexLists (w : World) (h : IndexLists w) : IndexAgrees w := by
  refine ⟨?_, ?_, ?_⟩
  · intro p t
    rw [(h p).1]
    simp only [List.mem_map, List.mem_filter, decide_eq_true_eq]
    constructor
    · rintro ⟨e, hin, hp, ht⟩
      exact ⟨e, ⟨hin, hp⟩, ht⟩
    · rintro ⟨e, ⟨hin, hp⟩, ht⟩
      exact ⟨e, hin, hp, ht⟩
  · intro p id
    rw [(h p).2.1]
    simp only [List.mem_map, List.mem_filter, decide_eq_true_eq]
    constructor
    · rintro ⟨e, hin, hp, ht⟩
      exact ⟨e, ⟨hin, hp⟩, ht⟩
    · rintro ⟨e, ⟨hin, hp⟩, ht⟩
      exact ⟨e, hin, hp, ht⟩
  · intro p id
    rw [(h p).2.2]
    simp only [List.mem_map, List.mem_filter, decide_eq_true_eq]
    constructor
    · rintro ⟨e, hin, hp, ht⟩
      exact ⟨e, ⟨hin, hp⟩, ht⟩
    · rintro ⟨e, ⟨hin, hp⟩, ht⟩
      exact ⟨e, hin, hp, ht⟩

/-- The list form of the index is kept by every guarded event. -/
theorem IndexLists_run (events : List Event) (w : World) (h : IndexLists w)
    (hall : allowed indexGuard w events = true) : IndexLists (run w events) := by
  induction events generalizing w with
  | nil => exact h
  | cons e rest ih =>
    simp only [allowed, Bool.and_eq_true] at hall
    obtain ⟨hg, hrest⟩ := hall
    have hstep : IndexLists (e.apply w) := by
      cases e with
      | joinRoom worker socket r =>
        simp only [indexGuard, Bool.not_eq_true'] at hg
        exact IndexLists_joinRoom w worker socket r hg h
      | addTransport r p t c => exact IndexLists_addTransport w r p t c h
      | addProducer producer r p => exact IndexLists_addProducer w producer r p h
      | addConsumer p r c => exact IndexLists_addConsumer w p r c h
      | removePeer p =>
        simp only [indexGuard] at hg
        cases hrp : removePeer w p with
        | threw w2 => simp [hrp, Outcome.completed] at hg
        | ok u w2 =>
          simp only [Event.apply, hrp, Outcome.world]
          exact IndexLists_removePeer w w2 p hrp h
    exact ih (e.apply w) hstep hrest

/-- Claim C16 fails after `rejoinEvents`: A's second `joinRoom` resets the lists
of its Peer entry while the transports collection still holds A's entry for t1.
It also fails after `raisingEvents`: the `removePeer` that raises has dropped
P's transports entry but left P's Peer entry, which still lists t1. -/
theorem rejoin_breaks_index :
    ¬ IndexAgrees (run World.empty rejoinEvents) ∧
    ¬ IndexAgrees (run World.empty raisingEvents) := by
  refine ⟨?_, ?_⟩
  · intro h
    have hin := (h.1 "A" { id := "t1" }).mp (by decide)
    revert hin
    decide
  · intro h
    have hin := (h.1 "P" { id := "t1" }).mpr (by decide)
    revert hin
    decide

/-- Claim C16, amended: in every registry state reachable from the empty
registry by a sequence of joinRoom, addTransport, addProducer, addConsumer and
removePeer events in which every joinRoom comes from a socket that owns no
entry of the three collections and every removePeer returns, the peer index
agrees with the collections: an entry with peer id `p` exists exactly when the
Peer entry of `p` lists the entity. -/
theorem index_agrees_on_guarded_runs (events : List Event)
    (hall : allowed indexGuard World.empty events = true) :
    IndexAgrees (run World.empty events) :=
  IndexAgrees_of_IndexLists _ (IndexLists_run events World.empty IndexLists_empty hall)

/-- Claim C16, amended, after `sessionEvents`. -/
theorem index_agrees_on_guarded_runs_witness :
    IndexAgrees (run World.empty sessionEvents) :=
  index_agrees_on_guarded_runs sessionEvents (by decide)

/-! ## Room membership along event sequences -/

/-- Entries keep their owner's room name when the rooms map stays and every
Peer entry keeps its room name. -/
theorem OneRoom_of_same_names (w w2 : World) (hrooms : w2.rooms = w.rooms)
    (hpeers : ∀ q peer, getPeer w q = some peer →
      ∃ peer2, getPeer w2 q = some peer2 ∧ peer2.roomName = peer.roomName)
    (ht : ∀ e ∈ w2.transports, e ∈ w.transports ∨
      ∃ peer, getPeer w2 e.peerId = some peer ∧ e.roomName = peer.roomName)
    (hp : ∀ e ∈ w2.producers, e ∈ w.producers ∨
      ∃ peer, getPeer w2 e.peerId = some peer ∧ e.roomName = peer.roomName)
    (hc : ∀ e ∈ w2.consumers, e ∈ w.consumers ∨
      ∃ peer, getPeer w2 e.peerId = some peer ∧ e.roomName = peer.roomName)
    (h : OneRoom w) : OneRoom w2 := by
  obtain ⟨hM, hT, hP, hC⟩ := h
  refine ⟨?_, ?_, ?_, ?_⟩
  · intro p key room members hget hmem hin
    rw [hrooms] at hget
    obtain ⟨peer, hpeer, hkey⟩ := hM p key room members hget hmem hin
    obtain ⟨peer2, hpeer2, hname⟩ := hpeers p peer hpeer
    exact ⟨peer2, hpeer2, by rw [hname]; exact hkey⟩
  · intro e he
    rcases ht e he with hold | hnew
    · obtain ⟨peer, hpeer, hname⟩ := hT e hold
      obtain ⟨peer2, hpeer2, hname2⟩ := hpeers _ peer hpeer
      exact ⟨peer2, hpeer2, by rw [hname2]; exact hname⟩
    · exact hnew
  · intro e he
    rcases hp e he with hold | hnew
    · obtain ⟨peer, hpeer, hname⟩ := hP e hold
      obtain ⟨peer2, hpeer2, hname2⟩ := hpeers _ peer hpeer
      exact ⟨peer2, hpeer2, by rw [hname2]; exact hname⟩
    · exact hnew
  · intro e he
    rcases hc e he with hold | hnew
    · obtain ⟨peer, hpeer, hname⟩ := hC e hold
      obtain ⟨peer2, hpeer2, hname2⟩ := hpeers _ peer hpeer
      exact ⟨peer2, hpeer2, by rw [hname2]; exact hname⟩
    · exact hnew

/-- Writing `peers[p]` with a record of room name `name` keeps the room name of
every Peer entry, provided the entry of `p`, if any, had that room name. -/
theorem dictSet_keeps_names (peers : List (String × Peer)) (p : String) (newPeer : Peer)
    (hname : ∀ old, dictGet peers p = some old → newPeer.roomName = old.roomName)
    (q : String) (peer : Peer) (hq : dictGet peers q = some peer) :
    ∃ peer2, dictGet (dictSet peers p newPeer) q = some peer2 ∧
      peer2.roomName = peer.roomName := by
  by_cases h : q = p
  · subst h
    exact ⟨newPeer, dictGet_dictSet_same _ _ _, hname peer hq⟩
  · exact ⟨peer, by rw [dictGet_dictSet_other _ _ _ _ h]; exact hq, rfl⟩

theorem OneRoom_addTransport (w : World) (r : Option String) (p : String) (t : Transport)
    (c : Bool) (hg : (getPeer w p).bind (fun peer => peer.roomName) = r) (h : OneRoom w) :
    OneRoom (addTransport w r p t c) := by
  have hnew : ((getPeer w p).getD Peer.empty).roomName = r := by
    rw [← hg]
    cases getPeer w p <;> rfl
  apply OneRoom_of_same_names w _ (by rw [addTransport_eq]) _ _ _ _ h
  · intro q peer hq
    rw [addTransport_eq]
    apply dictSet_keeps_names w.peers p _ _ q peer hq
    intro old hold
    have : getPeer w p = some old := hold
    simp [this]
  · intro e he
    rw [addTransport_eq] at he ⊢
    simp only [List.mem_append, List.mem_singleton] at he
    rcases he with he | he
    · exact Or.inl he
    · subst he
      exact Or.inr ⟨_, dictGet_dictSet_same w.peers p _, hnew.symm⟩
  · intro e he
    rw [addTransport_eq] at he
    exact Or.inl he
  · intro e he
    rw [addTransport_eq] at he
    exact Or.inl he

theorem OneRoom_addProducer (w : World) (producer : Producer) (r : Option String)
    (p : String) (hg : (getPeer w p).bind (fun peer => peer.roomName) = r) (h : OneRoom w) :
    OneRoom (addProducer w producer r p) := by
  have hnew : ((getPeer w p).getD Peer.empty).roomName = r := by
    rw [← hg]
    cases getPeer w p <;> rfl
  apply OneRoom_of_same_names w _ (by rw [addProducer_eq]) _ _ _ _ h
  · intro q peer hq
    rw [addProducer_eq]
    apply dictSet_keeps_names w.peers p _ _ q peer hq
    intro old hold
    have : getPeer w p = some old := hold
    simp [this]
  · intro e he
    rw [addProducer_eq] at he
    exact Or.inl he
  · intro e he
    rw [addProducer_eq] at he ⊢
    simp only [List.mem_append, List.mem_singleton] at he
    rcases he with he | he
    · exact Or.inl he
    · subst he
      exact Or.inr ⟨_, dictGet_dictSet_same w.peers p _, hnew.symm⟩
  · intro e he
    rw [addProducer_eq] at he
    exact Or.inl he

theorem OneRoom_addConsumer (w : World) (p : String) (r : Option String) (c : Consumer)
    (hg : (getPeer w p).bind (fun peer => peer.roomName) = r) (h : OneRoom w) :
    OneRoom (addConsumer w p r c) := by
  have hnew : ((getPeer w p).getD Peer.empty).roomName = r := by
    rw [← hg]
    cases getPeer w p <;> rfl
  apply OneRoom_of_same_names w _ (by rw [addConsumer_eq]) _ _ _ _ h
  · intro q peer hq
    rw [addConsumer_eq]
    apply dictSet_keeps_names w.peers p _ _ q peer hq
    intro old hold
    have : getPeer w p = some old := hold
    simp [this]
  · intro e he
    rw [addConsumer_eq] at he
    exact Or.inl he
  · intro e he
    rw [addConsumer_eq] at he
    exact Or.inl he
  · intro e he
    rw [addConsumer_eq] at he ⊢
    simp only [List.mem_append, List.mem_singleton] at he
    rcases he with he | he
    · exact Or.inl he
    · subst he
      exact Or.inr ⟨_, dictGet_dictSet_same w.peers p _, hnew.symm⟩


theorem OneRoom_joinRoom (w : World) (worker : Option Worker) (socket : Socket)
    (r : Option String)
    (hg : ∀ old, getPeer w socket.id = some old → old.roomName = r) (h : OneRoom w) :
    OneRoom (joinRoom w worker socket r) := by
  rcases joinRoom_cases w worker socket r with hsame | ⟨router, n, hjoin⟩
  · rw [hsame]
    exact h
  have h1 : OneRoom
      { w with
        peers := dictSet w.peers socket.id
          { socket := some socket, roomName := r, transports := some [],
            consumers := some [], producers := some [], peerDetails := some () } } := by
    refine OneRoom_of_same_names w _ rfl ?_ (fun e he => Or.inl he)
      (fun e he => Or.inl he) (fun e he => Or.inl he) h
    intro q peer hq
    apply dictSet_keeps_names w.peers socket.id _ _ q peer hq
    intro old hold
    exact (hg old hold).symm
  obtain ⟨hM, hT, hP, hC⟩ := h1
  rw [hjoin]
  refine ⟨?_, hT, hP, hC⟩
  intro p key room members hget hmem hin
  by_cases hk : key = keyOf r
  · subst hk
    have hget2 : dictGet (dictSet w.rooms (keyOf r)
        { router := router
          peers := some (((getRoom w r).bind (fun room => room.peers)).getD []
            ++ [socket.id]) }) (keyOf r) = some room := hget
    rw [dictGet_dictSet_same] at hget2
    injection hget2 with hget2
    subst hget2
    simp only [Option.some.injEq] at hmem
    subst hmem
    rcases List.mem_append.mp hin with hold | hnew
    · cases hroom : getRoom w r with
      | none => simp [hroom] at hold
      | some room0 =>
        cases hm0 : room0.peers with
        | none => simp [hroom, hm0] at hold
        | some m0 =>
          simp [hroom, hm0] at hold
          exact hM p (keyOf r) room0 m0 (roomsLookup_stored _ _ _ _ hroom hm0) hm0 hold
    · simp only [List.mem_singleton] at hnew
      subst hnew
      exact ⟨_, dictGet_dictSet_same w.peers socket.id _, rfl⟩
  · have hget2 : dictGet (dictSet w.rooms (keyOf r)
        { router := router
          peers := some (((getRoom w r).bind (fun room => room.peers)).getD []
            ++ [socket.id]) }) key = some room := hget
    rw [dictGet_dictSet_other _ _ _ _ hk] at hget2
    exact hM p key room members hget2 hmem hin

/-- The rooms and peers maps after `removePeer`: untouched when it raises; when it
returns, the room under the key of the peer's room name is left without
members. -/
theorem removePeer_rooms (w : World) (p : String) :
    ((removePeer w p).world.rooms = w.rooms ∧ (removePeer w p).world.peers = w.peers) ∨
    ∃ room0, (removePeer w p).world.rooms =
        dictSet w.rooms (keyOf ((getPeer w p).bind (fun peer => peer.roomName))) room0 ∧
      ∀ members, room0.peers = some members → members = [] := by
  rw [removePeer_eq]
  cases getRoom w ((getPeer w p).bind (fun peer => peer.roomName)) with
  | none => exact Or.inr ⟨_, rfl, by simp⟩
  | some room =>
    cases hmem : room.peers with
    | none => exact Or.inl ⟨by simp [hmem, Outcome.world], by simp [hmem, Outcome.world]⟩
    | some members =>
      refine Or.inr ⟨{ router := room.router, peers := some [] }, by simp [hmem, Outcome.world], ?_⟩
      intro m hm
      simp at hm
      exact hm

theorem OneRoom_removePeer (w : World) (p : String) (h : OneRoom w) :
    OneRoom (removePeer w p).world := by
  obtain ⟨hM, hT, hP, hC⟩ := h
  obtain ⟨ct, cp, cc⟩ := removePeer_collections w p
  refine ⟨?_, ?_, ?_, ?_⟩
  · intro q key room members hget hmem hin
    rcases removePeer_rooms w p with ⟨hr, hp⟩ | ⟨room0, hr, hempty⟩
    · rw [hr] at hget
      obtain ⟨peer, hpeer, hkey⟩ := hM q key room members hget hmem hin
      exact ⟨peer, by simp only [getPeer, hp]; exact hpeer, hkey⟩
    · rw [hr] at hget
      by_cases hk : key = keyOf ((getPeer w p).bind (fun peer => peer.roomName))
      · subst hk
        rw [dictGet_dictSet_same] at hget
        injection hget with hget
        subst hget
        rw [hempty members hmem] at hin
        simp at hin
      · rw [dictGet_dictSet_other _ _ _ _ hk] at hget
        obtain ⟨peer, hpeer, hkey⟩ := hM q key room members hget hmem hin
        have hqp : q ≠ p := by
          intro hqp
          subst hqp
          apply hk
          rw [hpeer]
          exact hkey
        exact ⟨peer, by rw [removePeer_other_peer w p q hqp]; exact hpeer, hkey⟩
  · intro e he
    rw [ct] at he
    simp only [List.mem_filter, decide_eq_true_eq] at he
    obtain ⟨peer, hpeer, hname⟩ := hT e he.1
    exact ⟨peer, by rw [removePeer_other_peer w p _ he.2]; exact hpeer, hname⟩
  · intro e he
    rw [cp] at he
    simp only [List.mem_filter, decide_eq_true_eq] at he
    obtain ⟨peer, hpeer, hname⟩ := hP e he.1
    exact ⟨peer, by rw [removePeer_other_peer w p _ he.2]; exact hpeer, hname⟩
  · intro e he
    rw [cc] at he
    simp only [List.mem_filter, decide_eq_true_eq] at he
    obtain ⟨peer, hpeer, hname⟩ := hC e he.1
    exact ⟨peer, by rw [removePeer_other_peer w p _ he.2]; exact hpeer, hname⟩

theorem OneRoom_empty : OneRoom World.empty := by
  refine ⟨?_, ?_, ?_, ?_⟩
  · intro p key room members hget
    simp [World.empty, dictGet] at hget
  · intro e he
    simp [World.empty] at he
  · intro e he
    simp [World.empty] at he
  · intro e he
    simp [World.empty] at he

/-- The room invariant is kept by every guarded event. -/
theorem OneRoom_run (events : List Event) (w : World) (h : OneRoom w)
    (hall : allowed roomGuard w events = true) : OneRoom (run w events) := by
  induction events generalizing w with
  | nil => exact h
  | cons e rest ih =>
    simp only [allowed, Bool.and_eq_true] at hall
    obtain ⟨hg, hrest⟩ := hall
    have hstep : OneRoom (e.apply w) := by
      cases e with
      | joinRoom worker socket r =>
        apply OneRoom_joinRoom w worker socket r _ h
        intro old hold
        simp only [roomGuard, hold, decide_eq_true_eq] at hg
        exact hg
      | addTransport r p t c =>
        simp only [roomGuard, decide_eq_true_eq] at hg
        exact OneRoom_addTransport w r p t c hg h
      | addProducer producer r p =>
        simp only [roomGuard, decide_eq_true_eq] at hg
        exact OneRoom_addProducer w producer r p hg h
      | addConsumer p r c =>
        simp only [roomGuard, decide_eq_true_eq] at hg
        exact OneRoom_addConsumer w p r c hg h
      | removePeer p => exact OneRoom_removePeer w p h
    exact ih (e.apply w) hstep hrest

/-- Claim C17 fails after `twoRoomEvents`: A has joined r1 and then r2, its Peer
entry names r2, and A is still in the membership list of r1.  It also fails
after `otherRoomEvents`: A's transports entry carries r2 while A's Peer entry
names r1. -/
theorem second_room_keeps_first_membership :
    ¬ OneRoom (run World.empty twoRoomEvents) ∧
    ¬ OneRoom (run World.empty otherRoomEvents) := by
  refine ⟨?_, ?_⟩
  · intro h
    obtain ⟨peer, hpeer, hkey⟩ := h.1 "A" "r1"
      { router := some { index := 0 }, peers := some ["A"] } ["A"] (by decide) rfl (by decide)
    have hA : getPeer (run World.empty twoRoomEvents) "A" =
        some { socket := some socketA, roomName := some "r2", transports := some [],
               consumers := some [], producers := some [], peerDetails := some () } := by
      decide
    rw [hA] at hpeer
    injection hpeer with hpeer
    subst hpeer
    revert hkey
    decide
  · intro h
    obtain ⟨peer, hpeer, hname⟩ := h.2.1
      { peerId := "A", transport := { id := "t1" }, roomName := some "r2", consumer := false }
      (by decide)
    have hA : getPeer (run World.empty otherRoomEvents) "A" =
        some { socket := some socketA, roomName := some "r1",
               transports := some [{ id := "t1" }],
               consumers := some [], producers := some [], peerDetails := some () } := by
      decide
    rw [hA] at hpeer
    injection hpeer with hpeer
    subst hpeer
    revert hname
    decide

/-- Claim C17, amended: in every registry state reachable from the empty
registry by a sequence of joinRoom, addTransport, addProducer, addConsumer and
removePeer events in which every joinRoom comes from a socket that has no Peer
entry or joins the room of its entry again, and every addition is made with
the room name stored on the owner's Peer entry, each peer id occurs in the
membership list of one room at most, that room is the one named on its Peer
entry, and every entry of the three collections carries the room name of its
owner's Peer entry. -/
theorem one_room_on_guarded_runs (events : List Event)
    (hall : allowed roomGuard World.empty events = true) :
    OneRoom (run World.empty events) ∧
    ∀ (p key1 key2 : String) (room1 room2 : Room) (m1 m2 : List String),
      dictGet (run World.empty events).rooms key1 = some room1 → room1.peers = some m1 →
      p ∈ m1 →
      dictGet (run World.empty events).rooms key2 = some room2 → room2.peers = some m2 →
      p ∈ m2 → key1 = key2 := by
  have h := OneRoom_run events World.empty OneRoom_empty hall
  refine ⟨h, ?_⟩
  intro p key1 key2 room1 room2 m1 m2 hg1 hm1 hin1 hg2 hm2 hin2
  obtain ⟨peer1, hp1, hk1⟩ := h.1 p key1 room1 m1 hg1 hm1 hin1
  obtain ⟨peer2, hp2, hk2⟩ := h.1 p key2 room2 m2 hg2 hm2 hin2
  rw [hp1] at hp2
  injection hp2 with hp2
  subst hp2
  rw [hk1, hk2]

/-- Claim C17, amended, after `sessionEvents`. -/
theorem one_room_on_guarded_runs_witness :
    OneRoom (run World.empty sessionEvents) ∧
    ∀ (p key1 key2 : String) (room1 room2 : Room) (m1 m2 : List String),
      dictGet (run World.empty sessionEvents).rooms key1 = some room1 → room1.peers = some m1 →
      p ∈ m1 →
      dictGet (run World.empty sessionEvents).rooms key2 = some room2 →
      room2.peers = some m2 → p ∈ m2 → key1 = key2 :=
  one_room_on_guarded_runs sessionEvents (by decide)

/-! ## Peer entries name stored rooms -/

theorem getRoom_same_rooms (w w2 : World) (h : w2.rooms = w.rooms) (name : Option String) :
    getRoom w2 name = getRoom w name := by
  simp [getRoom, h]

/-- A room stored with a membership list is still read with one after another
room with a membership list has been written. -/
theorem listed_after_dictSet (rooms : List (String × Room)) (key key2 : String)
    (written : Room) (wm : List String) (hw : written.peers = some wm)
    (h : ∃ room members, roomsLookup rooms key2 = some room ∧ room.peers = some members) :
    ∃ room members, roomsLookup (dictSet rooms key written) key2 = some room ∧
      room.peers = some members := by
  obtain ⟨room, members, hget, hmem⟩ := h
  by_cases hk : key2 = key
  · subst hk
    exact ⟨written, wm, roomsLookup_dictSet_same _ _ _, hw⟩
  · refine ⟨room, members, ?_, hmem⟩
    apply roomsLookup_of_stored
    rw [dictGet_dictSet_other _ _ _ _ hk]
    exact roomsLookup_stored _ _ _ _ hget hmem

theorem RoomsListed_empty : RoomsListed World.empty := by
  intro p peer hp
  simp [World.empty, getPeer, dictGet] at hp

theorem RoomsListed_joinRoom (w : World) (worker : Option Worker) (socket : Socket)
    (r : Option String) (h : RoomsListed w) : RoomsListed (joinRoom w worker socket r) := by
  rcases joinRoom_cases w worker socket r with hsame | ⟨router, n, hjoin⟩
  · rw [hsame]
    exact h
  rw [hjoin]
  intro q peer hq
  simp only [getPeer] at hq
  simp only [getRoom]
  by_cases hqs : q = socket.id
  · subst hqs
    rw [dictGet_dictSet_same] at hq
    injection hq with hq
    subst hq
    exact ⟨_, _, roomsLookup_dictSet_same _ _ _, rfl⟩
  · rw [dictGet_dictSet_other _ _ _ _ hqs] at hq
    exact listed_after_dictSet _ _ _ _ _ rfl (h q peer hq)

theorem RoomsListed_of_same_names (w w2 : World) (hrooms : w2.rooms = w.rooms)
    (hpeers : ∀ q peer2, getPeer w2 q = some peer2 →
      ∃ peer, getPeer w q = some peer ∧ peer.roomName = peer2.roomName)
    (h : RoomsListed w) : RoomsListed w2 := by
  intro q peer2 hq
  obtain ⟨peer, hp, hname⟩ := hpeers q peer2 hq
  rw [getRoom_same_rooms w w2 hrooms, ← hname]
  exact h q peer hp

/-- Writing `peers[p]` over an existing entry, keeping its room name. -/
theorem dictSet_names_back (peers : List (String × Peer)) (p : String) (old new : Peer)
    (hold : dictGet peers p = some old) (hname : new.roomName = old.roomName)
    (q : String) (peer2 : Peer) (hq : dictGet (dictSet peers p new) q = some peer2) :
    ∃ peer, dictGet peers q = some peer ∧ peer.roomName = peer2.roomName := by
  by_cases h : q = p
  · subst h
    rw [dictGet_dictSet_same] at hq
    injection hq with hq
    subst hq
    exact ⟨old, hold, hname.symm⟩
  · rw [dictGet_dictSet_other _ _ _ _ h] at hq
    exact ⟨peer2, hq, rfl⟩

theorem RoomsListed_addTransport (w : World) (r : Option String) (p : String)
    (t : Transport) (c : Bool) (hg : (getPeer w p).isSome = true) (h : RoomsListed w) :
    RoomsListed (addTransport w r p t c) := by
  obtain ⟨old, hold⟩ := Option.isSome_iff_exists.mp hg
  apply RoomsListed_of_same_names w _ (by rw [addTransport_eq]) _ h
  intro q peer2 hq
  rw [addTransport_eq] at hq
  exact dictSet_names_back w.peers p old _ hold (by simp [hold]) q peer2 hq

theorem RoomsListed_addProducer (w : World) (producer : Producer) (r : Option String)
    (p : String) (hg : (getPeer w p).isSome = true) (h : RoomsListed w) :
    RoomsListed (addProducer w producer r p) := by
  obtain ⟨old, hold⟩ := Option.isSome_iff_exists.mp hg
  apply RoomsListed_of_same_names w _ (by rw [addProducer_eq]) _ h
  intro q peer2 hq
  rw [addProducer_eq] at hq
  exact dictSet_names_back w.peers p old _ hold (by simp [hold]) q peer2 hq

theorem RoomsListed_addConsumer (w : World) (p : String) (r : Option String)
    (c : Consumer) (hg : (getPeer w p).isSome = true) (h : RoomsListed w) :
    RoomsListed (addConsumer w p r c) := by
  obtain ⟨old, hold⟩ := Option.isSome_iff_exists.mp hg
  apply RoomsListed_of_same_names w _ (by rw [addConsumer_eq]) _ h
  intro q peer2 hq
  rw [addConsumer_eq] at hq
  exact dictSet_names_back w.peers p old _ hold (by simp [hold]) q peer2 hq

/-- The rooms and peers maps after `removePeer`.  It raises, leaving both maps,
exactly on a room read without membership list; otherwise it deletes the Peer
entry and rewrites the room, which has a membership list afterwards unless no
room was read. -/
theorem removePeer_maps (w : World) (p : String) :
    ((removePeer w p).world.rooms = w.rooms ∧ (removePeer w p).world.peers = w.peers ∧
      ∃ room, getRoom w ((getPeer w p).bind (fun peer => peer.roomName)) = some room ∧
        room.peers = none) ∨
    ∃ written, (removePeer w p).world.rooms =
        dictSet w.rooms (keyOf ((getPeer w p).bind (fun peer => peer.roomName))) written ∧
      (removePeer w p).world.peers = dictDelete w.peers p ∧
      (getRoom w ((getPeer w p).bind (fun peer => peer.roomName)) = none ∨
        written.peers = some []) := by
  rw [removePeer_eq]
  cases hroom : getRoom w ((getPeer w p).bind (fun peer => peer.roomName)) with
  | none => exact Or.inr ⟨_, rfl, rfl, Or.inl rfl⟩
  | some room =>
    cases hmem : room.peers with
    | none => exact Or.inl ⟨by simp [hmem, Outcome.world], by simp [hmem, Outcome.world],
        room, rfl, hmem⟩
    | some members =>
      exact Or.inr ⟨{ router := room.router, peers := some [] }, by simp [hmem, Outcome.world],
        by simp [hmem, Outcome.world], Or.inr rfl⟩

theorem RoomsListed_removePeer (w : World) (p : String) (h : RoomsListed w) :
    RoomsListed (removePeer w p).world := by
  rcases removePeer_maps w p with ⟨hr, hp, _⟩ | ⟨written, hr, hp, hw⟩
  · intro q peer hq
    rw [getRoom_same_rooms w _ hr]
    exact h q peer (by simpa [getPeer, hp] using hq)
  · intro q peer hq
    simp only [getPeer, hp] at hq
    have hqp : q ≠ p := by
      intro hqp
      subst hqp
      rw [dictGet_dictDelete_same] at hq
      cases hq
    rw [dictGet_dictDelete_other _ _ _ hqp] at hq
    have hold := h q peer hq
    simp only [getRoom, hr]
    rcases hw with hnone | hlist
    · obtain ⟨room, members, hget, hmem⟩ := hold
      refine ⟨room, members, ?_, hmem⟩
      apply roomsLookup_of_stored
      have hk : keyOf peer.roomName ≠
          keyOf ((getPeer w p).bind (fun peer => peer.roomName)) := by
        intro hk
        simp only [getRoom] at hget hnone
        rw [hk, hnone] at hget
        cases hget
      rw [dictGet_dictSet_other _ _ _ _ hk]
      exact roomsLookup_stored _ _ _ _ hget hmem
    · exact listed_after_dictSet _ _ _ _ _ hlist hold

/-- Every event that the handlers issue keeps the rooms of all Peer entries
stored with a membership list. -/
theorem RoomsListed_run (events : List Event) (w : World) (h : RoomsListed w)
    (hall : allowed ownerGuard w events = true) : RoomsListed (run w events) := by
  induction events generalizing w with
  | nil => exact h
  | cons e rest ih =>
    simp only [allowed, Bool.and_eq_true] at hall
    obtain ⟨hg, hrest⟩ := hall
    have hstep : RoomsListed (e.apply w) := by
      cases e with
      | joinRoom worker socket r => exact RoomsListed_joinRoom w worker socket r h
      | addTransport r p t c => exact RoomsListed_addTransport w r p t c hg h
      | addProducer producer r p => exact RoomsListed_addProducer w producer r p hg h
      | addConsumer p r c => exact RoomsListed_addConsumer w p r c hg h
      | removePeer p => exact RoomsListed_removePeer w p h
    exact ih (e.apply w) hstep hrest

/-- When the room that the Peer entry of `p`, if any, names is stored with a
membership list, the peers map has no entry for `p` after `removePeer p`,
whether the call returned or raised. -/
theorem removePeer_peer_gone (w : World) (p : String)
    (h : ∀ peer, getPeer w p = some peer →
      ∃ room members, getRoom w peer.roomName = some room ∧ room.peers = some members) :
    getPeer (removePeer w p).world p = none := by
  rcases removePeer_maps w p with ⟨_, hp, room, hget, hnone⟩ | ⟨written, _, hp, _⟩
  · simp only [getPeer, hp]
    cases hpeer : dictGet w.peers p with
    | none => rfl
    | some peer =>
      exfalso
      have hpeer2 : getPeer w p = some peer := hpeer
      obtain ⟨room2, members, hget2, hmem⟩ := h peer hpeer2
      rw [hpeer2] at hget
      change getRoom w peer.roomName = some room at hget
      rw [hget] at hget2
      injection hget2 with hget2
      subst hget2
      rw [hnone] at hmem
      cases hmem
  · simp only [getPeer, hp]
    exact dictGet_dictDelete_same _ _

/-- Claim C2: for every registry state and every peer `p`, after `removePeer p`,
whether it returned or raised, the transports, producers and consumers
collections contain no entry whose peer id is `p`, and the peers map has no
entry for `p` whenever the room that the Peer entry of `p` names, if `p` has an
entry, is stored with a membership list.  That is so in every registry state
that events of the handlers lead to from the empty registry (joinRoom,
additions for a peer that has a Peer entry, removePeer): there the peers map
has no entry for `p` after `removePeer p`. -/
theorem removePeer_removes_entries_and_peer :
    (∀ (w : World) (p : String),
      (∀ item ∈ (removePeer w p).world.transports, item.peerId ≠ p) ∧
      (∀ item ∈ (removePeer w p).world.producers, item.peerId ≠ p) ∧
      (∀ item ∈ (removePeer w p).world.consumers, item.peerId ≠ p)) ∧
    (∀ (w : World) (p : String),
      (∀ peer, getPeer w p = some peer →
        ∃ room members, getRoom w peer.roomName = some room ∧ room.peers = some members) →
      getPeer (removePeer w p).world p = none) ∧
    (∀ (events : List Event) (p : String), allowed ownerGuard World.empty events = true →
      getPeer (removePeer (run World.empty events) p).world p = none) := by
  refine ⟨fun w p => removePeer_owned_entries_gone w p,
    fun w p h => removePeer_peer_gone w p h, ?_⟩
  intro events p hall
  exact removePeer_peer_gone _ p
    (fun peer hpeer => RoomsListed_run events World.empty RoomsListed_empty hall p peer hpeer)

/-- Claim C2 after `sessionEvents`: B has a Peer entry, and none once it has
been removed. -/
theorem removePeer_removes_entries_and_peer_witness :
    (getPeer (run World.empty sessionEvents) "B").isSome = true ∧
    getPeer (removePeer (run World.empty sessionEvents) "B").world "B" = none :=
  ⟨by decide, removePeer_removes_entries_and_peer.2.2 sessionEvents "B" (by decide)⟩

end Mediasoup
